import Mathlib

/-!
Verification of the Cibus fixed-width pipeline: a shallow embedding of the
layout decoder (`layout_parser.py`), the record decoder (`data_parser.py`),
the column profiler (`profiler_utilities.py`), the deterministic fallback
classifier (`llm_profiler.py`), and the synthetic generator
(`data_generator.py`), together with theorems settling the specification
claims about them.
-/

set_option linter.unusedVariables false

namespace Cibus

/-! ### Python string primitives -/

/-- Whitespace set used by Python's `str.strip()` / `str.isspace` (ASCII and
Latin-1 part; exotic Unicode space classes are not used by this pipeline). -/
def pyIsSpace (c : Char) : Bool :=
  c == ' ' || c == '\t' || c == '\n' || c == '\r' || c == '\x0b' || c == '\x0c' ||
  c == '\x1c' || c == '\x1d' || c == '\x1e' || c == '\x1f' || c == '\u0085' || c == ' '

/-- `str.strip()` on a character list: drop leading and trailing whitespace. -/
def stripList (cs : List Char) : List Char :=
  ((cs.dropWhile pyIsSpace).reverse.dropWhile pyIsSpace).reverse

/-- `str.strip()` on a string. -/
def pyStrip (s : String) : String := ⟨stripList s.data⟩

/-- Python slice `s[pos : pos + w]` for non-negative `pos`, `w` (clamping at
the end of the string, as Python does). -/
def pySlice (cs : List Char) (pos w : Nat) : List Char := (cs.drop pos).take w

/-- Slice of a string, as `line[pos : pos + w]`. -/
def strSlice (s : String) (pos w : Nat) : String := ⟨pySlice s.data pos w⟩

/-- Digit characters of a number, most significant first, prepended to `acc`
(helper for `pyStr`; the first argument is fuel, which is structural so that
the definition evaluates inside the kernel — any fuel of at least the digit
count gives the digits, and `pyStr` passes `n` itself). -/
def pyStrAux : Nat → Nat → List Char → List Char
  | 0, _, acc => acc
  | fuel + 1, n, acc =>
    if n = 0 then acc
    else pyStrAux fuel (n / 10) (Char.ofNat (48 + n % 10) :: acc)

/-- Python `str(n)` for a natural number. -/
def pyStr (n : Nat) : String := if n = 0 then "0" else ⟨pyStrAux n n []⟩

/-- Numeric value of a digit string (inverse of decimal rendering). -/
def digitsVal (cs : List Char) : Nat := cs.foldl (fun a c => a * 10 + (c.toNat - 48)) 0

/-- Python `s.zfill(w)` on a character list: left-pad with `'0'` to width `w`,
keeping a leading sign character in front of the padding. -/
def zfillList (cs : List Char) (w : Nat) : List Char :=
  if w ≤ cs.length then cs
  else
    match cs with
    | c :: rest =>
      if c = '+' ∨ c = '-' then c :: (List.replicate (w - cs.length) '0' ++ rest)
      else List.replicate (w - cs.length) '0' ++ cs
    | [] => List.replicate w '0'

/-- Python `s.zfill(w)`. -/
def pyZfill (s : String) (w : Nat) : String := ⟨zfillList s.data w⟩

/-- Digit run with single underscores allowed between digits, continuing an
accumulated value (grammar of Python `int()` literals after the first digit). -/
def pyDigitsAux : List Char → Nat → Option Nat
  | [], acc => some acc
  | '_' :: c :: rest, acc =>
    if c.isDigit then pyDigitsAux rest (acc * 10 + (c.toNat - 48)) else none
  | '_' :: [], _ => none
  | c :: rest, acc =>
    if c.isDigit then pyDigitsAux rest (acc * 10 + (c.toNat - 48)) else none

/-- Unsigned digit string of Python `int()`: a digit followed by digits with
single embedded underscores. -/
def pyDigits (cs : List Char) : Option Nat :=
  match cs with
  | [] => none
  | c :: rest => if c.isDigit then pyDigitsAux rest (c.toNat - 48) else none

/-- Python `int(s)` on a string: strip surrounding whitespace, optional sign,
then an underscore-separated digit run; `none` models `ValueError`. -/
def pyInt (s : String) : Option Int :=
  match stripList s.data with
  | '+' :: rest => (pyDigits rest).map (fun n => (n : Int))
  | '-' :: rest => (pyDigits rest).map (fun n => -(n : Int))
  | cs => (pyDigits cs).map (fun n => (n : Int))

/-- ASCII lowercasing, as Python `str.lower()` restricted to ASCII input. -/
def pyLower (s : String) : String := ⟨s.data.map Char.toLower⟩

/-! ### Layout decoder (`layout_parser.parse_xls_layout`, row loop) -/

/-- A spreadsheet cell value as seen by the row loop of `parse_xls_layout`.
`cFloat` models Python floats by their rational value; `cBool` is included
because Python `bool` is a subclass of `int`; `cOther` covers any other cell
type (e.g. a datetime). -/
inductive Cell where
  | cNone
  | cStr (s : String)
  | cInt (n : Int)
  | cFloat (q : ℚ)
  | cBool (b : Bool)
  | cOther
deriving DecidableEq

/-- Truncation toward zero, as Python `int()` applied to a float. -/
def ratTrunc (q : ℚ) : Int := if 0 ≤ q then ⌊q⌋ else ⌈q⌉

/-- `re.search(r'\((.+)\)', s)` restarted after an opening parenthesis: the
capture runs from just after the `(` to the last `)` reachable without
crossing a newline, and must be non-empty. -/
def parenCapture (tail : List Char) : Option (List Char) :=
  let run := tail.takeWhile (fun c => c ≠ '\n')
  match (List.range run.length).reverse.find?
      (fun j => decide (1 ≤ j) && (run.getD j ' ' == ')')) with
  | some j => some (run.take j)
  | none => none

/-- `re.search(r'\((.+)\)', s)`: scan left to right for the first `(` from
which a greedy capture up to a later `)` succeeds. -/
def cobolSearch : List Char → Option (List Char)
  | [] => none
  | '(' :: tail =>
    match parenCapture tail with
    | some cap => some cap
    | none => cobolSearch tail
  | _ :: tail => cobolSearch tail

/-- One iteration of the row loop of `parse_xls_layout`: `none` models
`continue` (row skipped). A missing name skips the row; a string length
specifier goes through the parenthesis capture and `int()`; ints, bools and
floats are truncated with `int()`; any other type is skipped. -/
def rowWidth : Option String × Cell → Option (String × Int)
  | (none, _) => none
  | (some name, Cell.cStr s) =>
    match cobolSearch s.data with
    | none => none
    | some cap => (pyInt ⟨cap⟩).map (fun v => (name, v))
  | (some name, Cell.cInt n) => some (name, n)
  | (some name, Cell.cBool b) => some (name, if b then 1 else 0)
  | (some name, Cell.cFloat q) => some (name, ratTrunc q)
  | (some _, Cell.cNone) => none
  | (some _, Cell.cOther) => none

/-- The row loop of `parse_xls_layout` over the data rows (rows 2..) of the
sheet: surviving rows are appended in input order. -/
def parse_xls_layout (rows : List (Option String × Cell)) : List (String × Int) :=
  rows.filterMap rowWidth

/-! ### Record decoder (`data_parser.parse_fixed_length_data`) -/

/-- `sum(length for _, length in layout)`.  Widths are modelled as `Nat`: the
record decoder is specified over layouts, whose widths are non-negative per
the data model (Python negative-index slice semantics is out of scope). -/
def recordLength (layout : List (String × Nat)) : Nat := (layout.map (·.2)).sum

/-- Python dict assignment `d[k] = v`: update in place if the key exists,
otherwise append, preserving insertion order. -/
def pyInsert {α : Type} (d : List (String × α)) (k : String) (v : α) : List (String × α) :=
  match d with
  | [] => [(k, v)]
  | (k₀, v₀) :: rest => if k₀ = k then (k₀, v) :: rest else (k₀, v₀) :: pyInsert rest k v

/-- Python dict lookup on an insertion-ordered association list whose keys are
unique by construction. -/
def alookup {α : Type} (d : List (String × α)) (k : String) : Option α :=
  match d with
  | [] => none
  | (k₀, v) :: rest => if k₀ = k then some v else alookup rest k

/-- Inner field loop of `parse_fixed_length_data`: walk the layout, slice
`line[current_pos : current_pos + field_length]`, strip it, assign it to the
field name, and advance `current_pos`. -/
def decodeLineAux (layout : List (String × Nat)) (cs : List Char) (pos : Nat)
    (d : List (String × String)) : List (String × String) :=
  match layout with
  | [] => d
  | (name, w) :: rest =>
    decodeLineAux rest cs (pos + w) (pyInsert d name ⟨stripList (pySlice cs pos w)⟩)

/-- The row built from one line of exactly the record length. -/
def decodeLine (layout : List (String × Nat)) (line : String) : List (String × String) :=
  decodeLineAux layout line.data 0 []

/-- Python `s.split('\n')`: split at every newline (an empty input yields one
empty piece, matching `"".split('\n') == ['']`). -/
def splitNL : List Char → List (List Char)
  | [] => [[]]
  | '\n' :: rest => [] :: splitNL rest
  | c :: rest =>
    match splitNL rest with
    | [] => [[c]]
    | l :: ls => (c :: l) :: ls

/-- `parse_fixed_length_data`: split on line breaks, drop blank lines, skip
lines whose length differs from the record length, and decode the rest in
input order. -/
def parse_fixed_length_data (data_content : String) (layout : List (String × Nat)) :
    List (List (String × String)) :=
  let lines := (splitNL data_content.data).filter (fun l => stripList l != [])
  lines.filterMap (fun line =>
    if line.length = recordLength layout then some (decodeLineAux layout line 0 []) else none)

/-! ### Column profiler (`profiler_utilities.profile_data`) -/

/-- The per-column statistics dict produced by `profile_data`.  `min_length`
and `max_length` are `none` for a non-object (all-NaN) column, mirroring the
pandas `dtype` branch. -/
structure ColProfile where
  total_count : Nat
  unique_count : Nat
  cardinality : ℚ
  value_counts : List (String × Nat)
  min_length : Option Nat
  max_length : Option Nat
deriving DecidableEq

/-- The DataFrame's columns: every key appearing in some record.  (pandas
orders them by first appearance; `dedup` keeps one copy of each, and no claim
depends on the column order.) -/
def dfColumns (data : List (List (String × String))) : List String :=
  (data.flatMap (fun r => r.map Prod.fst)).dedup

/-- One column of the DataFrame: each record's value for the column, `none`
modelling NaN for a record missing the key. -/
def colCells (data : List (List (String × String))) (c : String) : List (Option String) :=
  data.map (fun r => alookup r c)

/-- The loop body of `profile_data` for one column: `series.count()` counts
non-NaN cells, `series.unique()` includes NaN (collapsed to one entry),
`series.value_counts()` drops NaN, and string lengths come from
`series.astype(str)` (NaN renders as `"nan"`, length 3).  The value-count
mapping is modelled in first-occurrence order of the distinct values; pandas
sorts it by descending count, which leaves the mapping's contents unchanged.
Cardinality is the rational `unique_count / total_count` (Python float
division idealized over ℚ). -/
def profileColumn (cells : List (Option String)) : ColProfile :=
  let vals := cells.filterMap id
  let total := vals.length
  let uniq := cells.dedup.length
  let lens := cells.map (fun c => match c with | some s => s.length | none => 3)
  { total_count := total
    unique_count := uniq
    cardinality := if 0 < total then mkRat uniq total else 0
    value_counts := vals.dedup.map (fun v => (v, vals.count v))
    min_length := if cells.any (fun c => c.isSome) then lens.min? else none
    max_length := if cells.any (fun c => c.isSome) then lens.max? else none }

/-- `profile_data`: empty input yields an empty mapping; otherwise each column
of the DataFrame is profiled. -/
def profile_data (data : List (List (String × String))) : List (String × ColProfile) :=
  if data.isEmpty then []
  else (dfColumns data).map (fun c => (c, profileColumn (colCells data c)))

/-! ### Pattern classifier fallback (`llm_profiler.infer_data_pattern`, mock branch) -/

/-- Python exceptions that can surface from the embedded functions. -/
inductive PyErr where
  | typeError
  | valueError
  | indexError
  | reError
deriving DecidableEq

instance {ε α : Type} [DecidableEq ε] [DecidableEq α] : DecidableEq (Except ε α) :=
  fun a b =>
    match a, b with
    | .ok x, .ok y =>
      if h : x = y then isTrue (by rw [h]) else isFalse (fun hh => h (Except.ok.inj hh))
    | .error x, .error y =>
      if h : x = y then isTrue (by rw [h]) else isFalse (fun hh => h (Except.error.inj hh))
    | .ok _, .error _ => isFalse (fun hh => Except.noConfusion hh)
    | .error _, .ok _ => isFalse (fun hh => Except.noConfusion hh)

/-- The `generation_guidelines` dict: a single open bag whose fields are
present or absent, as in the Python dicts (numeric bounds idealized over ℚ). -/
structure GenGuidelines where
  number_type : Option String := none
  min_value : Option ℚ := none
  max_value : Option ℚ := none
  decimal_places : Option Nat := none
  date_format : Option String := none
  min_date : Option String := none
  max_date : Option String := none
deriving DecidableEq

/-- The classifier response dict. -/
structure MockResponse where
  column_name : String
  pattern : String
  reasoning : String
  generation_guidelines : Option GenGuidelines := none
deriving DecidableEq

/-- The column-profile dict as read by the mock classifier through `.get`:
a missing key reads as `none` (Python `None`), and the `"value_counts" in
column_profile` membership test is the boolean field. -/
structure MockProfile where
  unique_count : Option Nat
  total_count : Option Nat
  min_length : Option Nat
  max_length : Option Nat
  has_value_counts : Bool
deriving DecidableEq

/-- The deterministic mock branch of `infer_data_pattern` (taken when no API
key is configured).  Option equality models Python `None == None`; comparing
a missing `unique_count` against `5` with `<` raises `TypeError`.  Reasoning
texts are reproduced from the source modulo punctuation. -/
def infer_data_pattern (column_name : String) (p : MockProfile) :
    Except PyErr MockResponse :=
  if pyLower column_name = "id"
      ∨ (p.unique_count = p.total_count ∧ p.min_length = some 8 ∧ p.max_length = some 8) then
    .ok ⟨column_name, "SEQUENCE",
      "The column has a unique value for every record, suggesting a progressive ID or sequence.",
      none⟩
  else if pyLower column_name ∈ ["product_type", "currency", "status"] then
    .ok ⟨column_name, "ENUM",
      "The column has a very low cardinality with a few unique values and a clear value distribution.",
      none⟩
  else
    match p.unique_count with
    | none => .error .typeError
    | some u =>
      if u < 5 ∧ p.has_value_counts then
        .ok ⟨column_name, "ENUM",
          "The column has a very low cardinality with a few unique values and a clear value distribution.",
          none⟩
      else if pyLower column_name ∈ ["price", "quantity", "zip_code"] then
        .ok ⟨column_name, "NUMBER", "The values are strictly numerical.",
          some { number_type := some (if pyLower column_name = "price" then "DECIMAL" else "INTEGER")
                 min_value := some (if pyLower column_name = "price" then (37 : ℚ) else 1)
                 max_value := some (if pyLower column_name = "price" then mkRat 24073 2 else 1000)
                 decimal_places := some (if pyLower column_name = "price" then 2 else 0) }⟩
      else if pyLower column_name = "order_date" then
        .ok ⟨column_name, "DATE", "The column contains a single, fixed-length date.",
          some { date_format := some "MMDDYYYY"
                 min_date := some "01012023"
                 max_date := some "12312023" }⟩
      else
        .ok ⟨column_name, "UNCLASSIFIED",
          "The column properties do not fit a well-defined pattern category.", none⟩

/-! ### Calendar arithmetic (Python `datetime.date` on the proleptic Gregorian
calendar, via day numbers with epoch 0000-03-01) -/

def isLeap (y : Nat) : Bool := y % 4 == 0 && (y % 100 != 0 || y % 400 == 0)

def daysInMonth (y m : Nat) : Nat :=
  if m = 2 then (if isLeap y then 29 else 28)
  else if m = 4 ∨ m = 6 ∨ m = 9 ∨ m = 11 then 30 else 31

/-- Day number of a civil date (valid for `1 ≤ y`, `1 ≤ m ≤ 12`). -/
def daysOfDate (y m d : Nat) : Nat :=
  let y₂ := if m ≤ 2 then y - 1 else y
  let era := y₂ / 400
  let yoe := y₂ % 400
  let mp := if 2 < m then m - 3 else m + 9
  let doy := (153 * mp + 2) / 5 + (d - 1)
  let doe := yoe * 365 + yoe / 4 - yoe / 100 + doy
  era * 146097 + doe

/-- Civil date of a day number (inverse of `daysOfDate` on its range). -/
def dateOfDays (z : Nat) : Nat × Nat × Nat :=
  let era := z / 146097
  let doe := z % 146097
  let yoe := (doe - doe / 1460 + doe / 36524 - doe / 146096) / 365
  let y := yoe + era * 400
  let doy := doe - (365 * yoe + yoe / 4 - yoe / 100)
  let mp := (5 * doy + 2) / 153
  let d := doy - (153 * mp + 2) / 5 + 1
  let m := if mp < 10 then mp + 3 else mp - 9
  (if m ≤ 2 then y + 1 else y, m, d)

/-! ### `strptime`/`strftime` on the `%Y`/`%m`/`%d` fragment

CPython's `_strptime` compiles the format to a regex: `%Y` is exactly four
digits, `%m` is `1[0-2]|0[1-9]|[1-9]`, `%d` is `3[01]|[12]\d|0[1-9]|[1-9]`,
runs of whitespace collapse to `\s+`, letters match case-insensitively, an
unknown directive or a stray trailing `%` raises `ValueError`, and a repeated
directive produces a duplicate regex group name, raising `re.error` (which is
not a `ValueError`).  Directives outside `%Y`/`%m`/`%d`/`%%` are modelled as
the `ValueError` case; theorems about DATE generation are stated within this
fragment. -/

inductive FmtTok where
  | lit (c : Char)
  | ws
  | dY
  | dM
  | dD
deriving DecidableEq

/-- Whitespace as matched by the regex class `\s` (ASCII part). -/
def reIsSpace (c : Char) : Bool :=
  c == ' ' || c == '\t' || c == '\n' || c == '\r' || c == '\x0b' || c == '\x0c'

/-- Tokenizer scan; the boolean flag records that the previous character was
whitespace already absorbed into a `ws` token (runs of format whitespace
collapse into a single `\s+`). -/
def tokGo : List Char → Bool → Except PyErr (List FmtTok)
  | [], _ => .ok []
  | ['%'], _ => .error .valueError
  | '%' :: c :: rest, _ =>
    if c = 'Y' then (tokGo rest false).map (FmtTok.dY :: ·)
    else if c = 'm' then (tokGo rest false).map (FmtTok.dM :: ·)
    else if c = 'd' then (tokGo rest false).map (FmtTok.dD :: ·)
    else if c = '%' then (tokGo rest false).map (FmtTok.lit '%' :: ·)
    else .error .valueError
  | c :: rest, afterWs =>
    if reIsSpace c then
      if afterWs then tokGo rest true
      else (tokGo rest true).map (FmtTok.ws :: ·)
    else (tokGo rest false).map (FmtTok.lit c :: ·)

/-- Tokenize a format string; a repeated directive is the `re.error` case. -/
def tokenizeFmt (s : String) : Except PyErr (List FmtTok) :=
  match tokGo s.data false with
  | .error e => .error e
  | .ok ts =>
    if 1 < ts.count FmtTok.dY ∨ 1 < ts.count FmtTok.dM ∨ 1 < ts.count FmtTok.dD then
      .error .reError
    else .ok ts

/-- `%Y` match candidates: exactly four digits. -/
def candY (cs : List Char) : List (Nat × List Char) :=
  match cs with
  | a :: b :: c :: d :: rest =>
    if a.isDigit && b.isDigit && c.isDigit && d.isDigit then
      [(digitsVal [a, b, c, d], rest)] else []
  | _ => []

/-- `%m` match candidates in regex alternation order `1[0-2]|0[1-9]|[1-9]`. -/
def candM (cs : List Char) : List (Nat × List Char) :=
  (match cs with
   | '1' :: b :: rest => if '0' ≤ b ∧ b ≤ '2' then [(10 + (b.toNat - 48), rest)] else []
   | '0' :: b :: rest => if '1' ≤ b ∧ b ≤ '9' then [(b.toNat - 48, rest)] else []
   | _ => [])
  ++ (match cs with
      | a :: rest => if '1' ≤ a ∧ a ≤ '9' then [(a.toNat - 48, rest)] else []
      | [] => [])

/-- `%d` match candidates in regex alternation order
`3[01]|[12]\d|0[1-9]|[1-9]`. -/
def candD (cs : List Char) : List (Nat × List Char) :=
  (match cs with
   | '3' :: b :: rest => if b = '0' ∨ b = '1' then [(30 + (b.toNat - 48), rest)] else []
   | a :: b :: rest =>
     if (a = '1' ∨ a = '2') ∧ b.isDigit then
       [((a.toNat - 48) * 10 + (b.toNat - 48), rest)]
     else if a = '0' ∧ '1' ≤ b ∧ b ≤ '9' then [(b.toNat - 48, rest)] else []
   | _ => [])
  ++ (match cs with
      | a :: rest => if '1' ≤ a ∧ a ≤ '9' then [(a.toNat - 48, rest)] else []
      | [] => [])

/-- A format literal matches case-insensitively (the regex is compiled with
`IGNORECASE`). -/
def litMatch (c x : Char) : Bool := c == x || c.toLower == x.toLower

/-- Suffixes after consuming `k` whitespace characters, greedy first
(`\s+` with backtracking). -/
def wsCands (cs : List Char) : List (List Char) :=
  let run := (cs.takeWhile reIsSpace).length
  (List.range run).reverse.map (fun i => cs.drop (i + 1))

/-- Backtracking matcher for the compiled format regex, anchored at both ends
(`_strptime` rejects unconverted leftover data).  Returns the captured
`%Y`/`%m`/`%d` values. -/
def mtch : List FmtTok → List Char → Option (Option Nat × Option Nat × Option Nat)
  | [], [] => some (none, none, none)
  | [], _ :: _ => none
  | FmtTok.lit _ :: _, [] => none
  | FmtTok.lit c :: toks, x :: rest => if litMatch c x then mtch toks rest else none
  | FmtTok.ws :: toks, cs => (wsCands cs).findSome? (fun rest => mtch toks rest)
  | FmtTok.dY :: toks, cs =>
    (candY cs).findSome? (fun p => (mtch toks p.2).map (fun r => (some p.1, r.2.1, r.2.2)))
  | FmtTok.dM :: toks, cs =>
    (candM cs).findSome? (fun p => (mtch toks p.2).map (fun r => (r.1, some p.1, r.2.2)))
  | FmtTok.dD :: toks, cs =>
    (candD cs).findSome? (fun p => (mtch toks p.2).map (fun r => (r.1, r.2.1, some p.1)))

/-- `datetime.strptime(s, fmt)` on the modelled fragment: `.error .valueError`
covers a bad directive, non-matching data, and an invalid calendar date (all
raised as `ValueError`); `.error .reError` is the duplicate-directive regex
failure; missing directives default to 1900-01-01 components. -/
def strptimeFrag (fmt s : String) : Except PyErr (Nat × Nat × Nat) :=
  match tokenizeFmt fmt with
  | .error e => .error e
  | .ok toks =>
    match mtch toks s.data with
    | none => .error .valueError
    | some (oy, om, od) =>
      let y := oy.getD 1900
      let m := om.getD 1
      let d := od.getD 1
      if 1 ≤ y ∧ y ≤ 9999 ∧ 1 ≤ m ∧ m ≤ 12 ∧ 1 ≤ d ∧ d ≤ daysInMonth y m then
        .ok (y, m, d)
      else .error .valueError

/-- Two-digit zero-padded rendering (as `%m`/`%d` in `strftime`). -/
def pad2 (n : Nat) : List Char := if n < 10 then '0' :: (pyStr n).data else (pyStr n).data

def sfGo : List Char → Nat × Nat × Nat → List Char
  | [], _ => []
  | '%' :: 'Y' :: rest, ymd => (pyStr ymd.1).data ++ sfGo rest ymd
  | '%' :: 'm' :: rest, ymd => pad2 ymd.2.1 ++ sfGo rest ymd
  | '%' :: 'd' :: rest, ymd => pad2 ymd.2.2 ++ sfGo rest ymd
  | '%' :: '%' :: rest, ymd => '%' :: sfGo rest ymd
  | c :: rest, ymd => c :: sfGo rest ymd

/-- `date.strftime(fmt)` on the fragment (`%Y` renders unpadded, as glibc
does; only formats that already passed `strptimeFrag` reach this point). -/
def strftimeFrag (fmt : String) (ymd : Nat × Nat × Nat) : String := ⟨sfGo fmt.data ymd⟩

/-! ### Synthetic generator (`data_generator.generate_synthetic_data`)

Randomness is modelled by an explicit stream of naturals consumed one value
per primitive draw; a bounded draw takes the stream value modulo the size of
the requested range, so quantifying over all streams ranges over exactly the
outcomes the Python RNG can produce.  `random.uniform` is idealized as a
rational draw. -/

/-- The per-column stats dict as read by the generator through `.get`. -/
structure ColStats where
  pattern : Option String := none
  min_length : Option Nat := none
  max_length : Option Nat := none
  value_counts : Option (List (String × Nat)) := none
  generation_guidelines : Option GenGuidelines := none
deriving DecidableEq

/-- Generator state: the `sequence_counters` dict and the position in the
random stream. -/
structure GenSt where
  counters : List (String × Nat)
  pos : Nat
deriving DecidableEq

/-- Consume one value from the random stream. -/
def draw (stream : Nat → Nat) (st : GenSt) : Nat × GenSt :=
  (stream st.pos, { st with pos := st.pos + 1 })

/-- Python `str(n)` for an int. -/
def pyIntStr (n : Int) : String := if n < 0 then "-" ++ pyStr n.natAbs else pyStr n.natAbs

/-- `random.uniform(a, b)`: `a + (b - a) * random()`, the unit draw taken as
a dyadic rational from the stream value. -/
def pyUniform (a b : ℚ) (r : Nat) : ℚ := a + (b - a) * mkRat (r % 1048576) 1048576

/-- Round half to even (Python float formatting), on the scaled rational. -/
def roundHalfEven (q : ℚ) : Int :=
  let fl := ⌊q⌋
  let fr := q - fl
  if fr < mkRat 1 2 then fl
  else if mkRat 1 2 < fr then fl + 1
  else if fl % 2 = 0 then fl else fl + 1

/-- `f"{v:.{p}f}"` idealized over ℚ. -/
def pyFormatFixed (q : ℚ) (p : Nat) : String :=
  let n := roundHalfEven (q * (10 : ℚ) ^ p)
  let sign : String := if n < 0 then "-" else ""
  let a := n.natAbs
  if p = 0 then sign ++ pyStr a
  else sign ++ pyStr (a / 10 ^ p) ++ "." ++ pyZfill (pyStr (a % 10 ^ p)) p

/-- `string.ascii_letters + string.digits + ' '`: the 63-character alphabet of
the random-string branch. -/
def asciiAlphabet : List Char :=
  "abcdefghijklmnopqrstuvwxyzABCDEFGHIJKLMNOPQRSTUVWXYZ0123456789 ".data

/-- `random.choices(alphabet, k = n)`: `n` independent uniform draws. -/
def drawChars (stream : Nat → Nat) (st : GenSt) : Nat → List Char × GenSt
  | 0 => ([], st)
  | k + 1 =>
    let (r, st₁) := draw stream st
    let c := asciiAlphabet.getD (r % 63) ' '
    let (cs, st₂) := drawChars stream st₁ k
    (c :: cs, st₂)

/-- One column's value for one record: the `if pattern == ...` chain of the
generator loop body.  The ENUM candidate list `list(value_counts.keys())` is
read off the (immutable) profile entry, as the precomputed `enum_values`
table holds exactly that list for every ENUM column.  Errors are the
uncaught exceptions: `IndexError` from `random.choice` on an empty sequence,
`ValueError` from `random.randint` on an empty range outside the DATE
branch, and `re.error` from a repeated date-format directive. -/
def genValue (stream : Nat → Nat) (stats : ColStats) (col : String) (st : GenSt) :
    Except PyErr (String × GenSt) :=
  if stats.pattern = some "ENUM" then
    let choices := (stats.value_counts.getD []).map Prod.fst
    let (r, st₁) := draw stream st
    match choices with
    | [] => .error .indexError
    | x :: xs => .ok ((x :: xs).getD (r % (x :: xs).length) x, st₁)
  else if stats.pattern = some "SEQUENCE" then
    let current := (alookup st.counters col).getD 0 + 1
    let length := stats.max_length.getD 0
    .ok (pyZfill (pyStr current) length,
      { st with counters := pyInsert st.counters col current })
  else if stats.pattern = some "NUMBER" then
    let g := stats.generation_guidelines.getD {}
    let numberType := g.number_type.getD "INTEGER"
    let minv := g.min_value.getD 0
    let maxv := g.max_value.getD 100
    if numberType = "DECIMAL" then
      let dp := g.decimal_places.getD 2
      let (r, st₁) := draw stream st
      .ok (pyFormatFixed (pyUniform minv maxv r) dp, st₁)
    else
      let lo := ratTrunc minv
      let hi := ratTrunc maxv
      let (r, st₁) := draw stream st
      if hi < lo then .error .valueError
      else
        let v := lo + (r % (hi - lo + 1).toNat : Nat)
        if numberType = "STRING_OF_DIGITS" then
          let length := stats.max_length.getD (pyIntStr v).length
          .ok (pyZfill (pyIntStr v) length, st₁)
        else .ok (pyIntStr v, st₁)
  else if stats.pattern = some "DATE" then
    let g := stats.generation_guidelines.getD {}
    let fmt := g.date_format.getD "%Y%m%d"
    let minS := g.min_date.getD "20000101"
    let maxS := g.max_date.getD "20251231"
    match strptimeFrag fmt minS with
    | .error .reError => .error .reError
    | .error _ => .ok ("00000000", st)
    | .ok dmin =>
      match strptimeFrag fmt maxS with
      | .error .reError => .error .reError
      | .error _ => .ok ("00000000", st)
      | .ok dmax =>
        let nmin := daysOfDate dmin.1 dmin.2.1 dmin.2.2
        let nmax := daysOfDate dmax.1 dmax.2.1 dmax.2.2
        let (r, st₁) := draw stream st
        if nmax < nmin then .ok ("00000000", st₁)
        else .ok (strftimeFrag fmt (dateOfDays (nmin + r % (nmax - nmin + 1))), st₁)
  else
    let minLen := stats.min_length.getD 1
    let maxLen := stats.max_length.getD 10
    let (r, st₁) := draw stream st
    if maxLen < minLen then .error .valueError
    else
      let length := minLen + r % (maxLen - minLen + 1)
      let (cs, st₂) := drawChars stream st₁ length
      .ok (pyStrip ⟨cs⟩, st₂)

/-- The inner `for col in columns` loop building one record. -/
def genRecord (stream : Nat → Nat) (profile : List (String × ColStats)) :
    List String → GenSt → Except PyErr (List (String × String) × GenSt)
  | [], st => .ok ([], st)
  | col :: rest, st =>
    match genValue stream ((alookup profile col).getD {}) col st with
    | .error e => .error e
    | .ok (v, st₁) =>
      match genRecord stream profile rest st₁ with
      | .error e => .error e
      | .ok (r, st₂) => .ok ((col, v) :: r, st₂)

/-- The outer `for i in range(volume)` loop. -/
def genLoop (stream : Nat → Nat) (profile : List (String × ColStats))
    (columns : List String) : Nat → GenSt → Except PyErr (List (List (String × String)) × GenSt)
  | 0, st => .ok ([], st)
  | n + 1, st =>
    match genRecord stream profile columns st with
    | .error e => .error e
    | .ok (r, st₁) =>
      match genLoop stream profile columns n st₁ with
      | .error e => .error e
      | .ok (rs, st₂) => .ok (r :: rs, st₂)

/-- `generate_synthetic_data`: sequence counters zero-initialized for every
SEQUENCE column, then `volume` records generated in column order. -/
def generate_synthetic_data (profile : List (String × ColStats)) (volume : Nat)
    (stream : Nat → Nat) : Except PyErr (List (List (String × String))) :=
  let columns := profile.map Prod.fst
  let counters := (profile.filter (fun p => p.2.pattern == some "SEQUENCE")).map
    (fun p => (p.1, 0))
  match genLoop stream profile columns volume ⟨counters, 0⟩ with
  | .error e => .error e
  | .ok (rs, _) => .ok rs

/-- The date synthesis process described by the specification for a
guideline-less DATE column: independent draws of year, month and day within
fixed ranges, concatenated as zero-padded month, zero-padded day, then year
digits.  (Stated from the specification's words, for comparison with the
source-derived generator.) -/
def specMonthDayYear (y m d : Nat) : String := ⟨pad2 m ++ pad2 d ++ (pyStr y).data⟩

end Cibus

namespace Cibus

/-! ### Theorems: layout decoder claims -/

theorem parse_xls_layout_mem {rows : List (Option String × Cell)} {p : String × Int}
    (h : p ∈ parse_xls_layout rows) : ∃ r ∈ rows, rowWidth r = some p := by
  simpa [parse_xls_layout, List.mem_filterMap] using h

/-- C7 counterexample: an input row with integer length specifier `0` survives
with width `0`, which is not strictly positive. -/
theorem C7_cex :
    ("f", (0 : Int)) ∈ parse_xls_layout [(some "f", Cell.cInt 0)] ∧ ¬ (0 : Int) < 0 := by
  decide

/-- C7 amended: the layout decoder applies no positivity check; every
`(name, width)` pair in its output is exactly the integer produced from some
input row by the row rule (truncated numeric, or parenthesis capture fed to
`int()`), with no constraint on its sign. -/
theorem C7_amended (rows : List (Option String × Cell)) (p : String × Int)
    (h : p ∈ parse_xls_layout rows) : ∃ r ∈ rows, rowWidth r = some p :=
  parse_xls_layout_mem h

theorem C7_amended_witness :
    ∃ r ∈ [(some "f", Cell.cInt 0)], rowWidth r = some ("f", (0 : Int)) :=
  C7_amended [(some "f", Cell.cInt 0)] ("f", 0) (by decide)

theorem parse_xls_layout_flatMap (rows : List (Option String × Cell)) :
    parse_xls_layout rows = rows.flatMap (fun r => parse_xls_layout [r]) := by
  induction rows with
  | nil => rfl
  | cons r rs ih =>
    simp only [parse_xls_layout, List.filterMap_cons, List.flatMap_cons] at *
    cases h : rowWidth r <;> simp [h, ih, parse_xls_layout]

/-- C8: per-row behaviour of the layout decoder — numeric specifiers are
truncated to integer widths (bools counting as numeric, per Python), string
specifiers go through the parenthesised capture and `int()` with a skip on a
failed match or a failed parse, rows with a missing name or a specifier of any
other type are skipped — and the output is the input-ordered concatenation of
the surviving rows. -/
theorem C8 (rows : List (Option String × Cell)) :
    parse_xls_layout rows = rows.flatMap (fun r => parse_xls_layout [r])
    ∧ (∀ cell, parse_xls_layout [(none, cell)] = [])
    ∧ (∀ name n, parse_xls_layout [(some name, Cell.cInt n)] = [(name, n)])
    ∧ (∀ name b, parse_xls_layout [(some name, Cell.cBool b)]
        = [(name, if b then 1 else 0)])
    ∧ (∀ name q, parse_xls_layout [(some name, Cell.cFloat q)] = [(name, ratTrunc q)])
    ∧ (∀ name s, cobolSearch s.data = none →
        parse_xls_layout [(some name, Cell.cStr s)] = [])
    ∧ (∀ name s cap, cobolSearch s.data = some cap → pyInt ⟨cap⟩ = none →
        parse_xls_layout [(some name, Cell.cStr s)] = [])
    ∧ (∀ name s cap v, cobolSearch s.data = some cap → pyInt ⟨cap⟩ = some v →
        parse_xls_layout [(some name, Cell.cStr s)] = [(name, v)])
    ∧ (∀ name, parse_xls_layout [(some name, Cell.cNone)] = []
        ∧ parse_xls_layout [(some name, Cell.cOther)] = []) := by
  refine ⟨parse_xls_layout_flatMap rows, ?_, ?_, ?_, ?_, ?_, ?_, ?_, ?_⟩
  · intro cell; rfl
  · intro name n; rfl
  · intro name b; rfl
  · intro name q; rfl
  · intro name s h; simp [parse_xls_layout, List.filterMap, rowWidth, h]
  · intro name s cap h hi; simp [parse_xls_layout, List.filterMap, rowWidth, h, hi]
  · intro name s cap v h hv; simp [parse_xls_layout, List.filterMap, rowWidth, h, hv]
  · intro name; exact ⟨rfl, rfl⟩

theorem C8_witness :
    parse_xls_layout [(some "f", Cell.cStr "X(12)")] = [("f", (12 : Int))] :=
  (C8 [(some "f", Cell.cStr "X(12)")]).2.2.2.2.2.2.2.1 "f" "X(12)" ['1', '2'] 12
    (by decide) (by decide)

/-! ### Theorems: classifier fallback -/

/-- C5 counterexample: for column name `"price"` with a profile failing both
the SEQUENCE statistics rule and the ENUM rule, the fallback returns pattern
`NUMBER` with `generation_guidelines` present, where the claim predicts
`UNCLASSIFIED` with no guidelines. -/
theorem C5_cex :
    infer_data_pattern "price" ⟨some 10, some 20, some 3, some 3, false⟩
        = Except.ok ⟨"price", "NUMBER", "The values are strictly numerical.",
            some ⟨some "DECIMAL", some 37, some (mkRat 24073 2), some 2, none, none, none⟩⟩
    ∧ (10 : Nat) ≠ 20
    ∧ ¬ ((10 : Nat) < 5)
    ∧ "NUMBER" ≠ "UNCLASSIFIED" := by
  decide

/-- C5 amended: with `unique_count` present (as in every profiler-produced
profile), the fallback returns SEQUENCE exactly when the lowercased name is
`"id"` or `unique_count == total_count` with `min_length` and `max_length`
both 8; otherwise ENUM exactly when the lowercased name is one of
`product_type`/`currency`/`status`, or `unique_count < 5` with a frequency
map present; otherwise NUMBER for names `price`/`quantity`/`zip_code` and
DATE for name `order_date` (these name-based branches carrying
`generation_guidelines`); otherwise UNCLASSIFIED.  Guidelines are present
exactly on the NUMBER and DATE branches. -/
theorem C5_amended (name : String) (p : MockProfile) (u : Nat)
    (hu : p.unique_count = some u) :
    ∃ r, infer_data_pattern name p = .ok r
      ∧ (r.pattern = "SEQUENCE" ↔ pyLower name = "id"
          ∨ (p.unique_count = p.total_count ∧ p.min_length = some 8
              ∧ p.max_length = some 8))
      ∧ (r.pattern = "ENUM" ↔ r.pattern ≠ "SEQUENCE"
          ∧ (pyLower name ∈ ["product_type", "currency", "status"]
              ∨ (u < 5 ∧ p.has_value_counts)))
      ∧ (r.pattern = "NUMBER" ↔ r.pattern ≠ "SEQUENCE" ∧ r.pattern ≠ "ENUM"
          ∧ pyLower name ∈ ["price", "quantity", "zip_code"])
      ∧ (r.pattern = "DATE" ↔ r.pattern ≠ "SEQUENCE" ∧ r.pattern ≠ "ENUM"
          ∧ r.pattern ≠ "NUMBER" ∧ pyLower name = "order_date")
      ∧ (r.pattern = "UNCLASSIFIED" ↔ r.pattern ≠ "SEQUENCE" ∧ r.pattern ≠ "ENUM"
          ∧ r.pattern ≠ "NUMBER" ∧ r.pattern ≠ "DATE")
      ∧ (r.generation_guidelines ≠ none ↔ r.pattern = "NUMBER" ∨ r.pattern = "DATE") := by
  unfold infer_data_pattern
  rw [hu]
  dsimp only
  split_ifs <;> refine ⟨_, rfl, ?_, ?_, ?_, ?_, ?_, ?_⟩ <;> simp_all

theorem C5_amended_witness :
    ∃ r, infer_data_pattern "x" ⟨some 3, some 3, some 8, some 8, true⟩ = .ok r
      ∧ (r.pattern = "SEQUENCE" ↔ pyLower "x" = "id"
          ∨ ((some 3 : Option Nat) = some 3 ∧ (some 8 : Option Nat) = some 8
              ∧ (some 8 : Option Nat) = some 8))
      ∧ (r.pattern = "ENUM" ↔ r.pattern ≠ "SEQUENCE"
          ∧ (pyLower "x" ∈ ["product_type", "currency", "status"]
              ∨ (3 < 5 ∧ true)))
      ∧ (r.pattern = "NUMBER" ↔ r.pattern ≠ "SEQUENCE" ∧ r.pattern ≠ "ENUM"
          ∧ pyLower "x" ∈ ["price", "quantity", "zip_code"])
      ∧ (r.pattern = "DATE" ↔ r.pattern ≠ "SEQUENCE" ∧ r.pattern ≠ "ENUM"
          ∧ r.pattern ≠ "NUMBER" ∧ pyLower "x" = "order_date")
      ∧ (r.pattern = "UNCLASSIFIED" ↔ r.pattern ≠ "SEQUENCE" ∧ r.pattern ≠ "ENUM"
          ∧ r.pattern ≠ "NUMBER" ∧ r.pattern ≠ "DATE")
      ∧ (r.generation_guidelines ≠ none ↔ r.pattern = "NUMBER" ∨ r.pattern = "DATE") :=
  C5_amended "x" ⟨some 3, some 3, some 8, some 8, true⟩ 3 rfl

/-! ### Theorems: record decoder -/

theorem alookup_cons_self {α : Type} (d : List (String × α)) (k : String) (v : α) :
    alookup ((k, v) :: d) k = some v := by
  simp [alookup]

theorem alookup_cons_ne {α : Type} (d : List (String × α)) (k₀ k : String) (v : α)
    (h : ¬ k₀ = k) : alookup ((k₀, v) :: d) k = alookup d k := by
  simp [alookup, h]

theorem alookup_pyInsert_self {α : Type} (d : List (String × α)) (k : String) (v : α) :
    alookup (pyInsert d k v) k = some v := by
  induction d with
  | nil => simp [pyInsert, alookup]
  | cons hd tl ih =>
    obtain ⟨k₀, v₀⟩ := hd
    by_cases h : k₀ = k <;> simp [pyInsert, alookup, h, ih]

theorem alookup_pyInsert_ne {α : Type} (d : List (String × α)) (k : String) (v : α)
    (n : String) (h : k ≠ n) :
    alookup (pyInsert d k v) n = alookup d n := by
  induction d with
  | nil => simp [pyInsert, alookup, h]
  | cons hd tl ih =>
    obtain ⟨k₀, v₀⟩ := hd
    by_cases h₀ : k₀ = k
    · subst h₀; simp [pyInsert, alookup, h]
    · simp [pyInsert, alookup, h₀, ih]

theorem decodeLineAux_not_mem (layout : List (String × Nat)) (cs : List Char)
    (pos : Nat) (d : List (String × String)) (n : String)
    (h : ∀ p ∈ layout, p.1 ≠ n) :
    alookup (decodeLineAux layout cs pos d) n = alookup d n := by
  induction layout generalizing pos d with
  | nil => rfl
  | cons hd tl ih =>
    obtain ⟨name, w⟩ := hd
    have hn : name ≠ n := h (name, w) (by simp)
    rw [decodeLineAux, ih _ _ (fun p hp => h p (by simp [hp])), alookup_pyInsert_ne _ _ _ _ hn]

theorem decodeLineAux_lookup (l₁ l₂ : List (String × Nat)) (name : String) (w : Nat)
    (cs : List Char) (pos : Nat) (d : List (String × String))
    (h : ∀ p ∈ l₂, p.1 ≠ name) :
    alookup (decodeLineAux (l₁ ++ (name, w) :: l₂) cs pos d) name
      = some ⟨stripList (pySlice cs (pos + recordLength l₁) w)⟩ := by
  induction l₁ generalizing pos d with
  | nil =>
    rw [List.nil_append, decodeLineAux, decodeLineAux_not_mem _ _ _ _ _ h,
      alookup_pyInsert_self]
    simp [recordLength]
  | cons hd tl ih =>
    obtain ⟨m, w₀⟩ := hd
    rw [List.cons_append, decodeLineAux, ih]
    have harith : pos + w₀ + recordLength tl = pos + recordLength ((m, w₀) :: tl) := by
      simp [recordLength]; omega
    rw [harith]

theorem filterMap_length_filter {α β : Type} (ls : List α) (n : Nat) (len : α → Nat)
    (f : α → β) :
    ls.filterMap (fun l => if len l = n then some (f l) else none)
      = (ls.filter (fun l => len l == n)).map f := by
  induction ls with
  | nil => rfl
  | cons h t ih => by_cases hh : len h = n <;> simp [hh, ih]

/-- C1: the record decoder keeps only non-blank lines of exactly the record
length, decoding them in input line order, and each decoded row assigns to a
field name the whitespace-trimmed slice whose start is the sum of the widths
before it in the layout and whose width is the field's declared width (a
duplicated field name takes the value of its last occurrence, per Python dict
assignment). -/
theorem C1 (layout : List (String × Nat)) (text : String) :
    parse_fixed_length_data text layout
      = (((splitNL text.data).filter (fun l => stripList l != [])).filter
          (fun l => l.length == recordLength layout)).map
          (fun l => decodeLineAux layout l 0 [])
    ∧ ∀ (line : String) (pre post : List (String × Nat)) (name : String) (w : Nat),
        layout = pre ++ (name, w) :: post → (∀ p ∈ post, p.1 ≠ name) →
        alookup (decodeLine layout line) name
          = some (pyStrip (strSlice line (recordLength pre) w)) := by
  constructor
  · rw [parse_fixed_length_data, filterMap_length_filter]
  · intro line pre post name w hl hpost
    subst hl
    rw [decodeLine, decodeLineAux_lookup _ _ _ _ _ _ _ hpost]
    simp [pyStrip, strSlice]

/-! ### Theorems: column profiler -/

theorem alookup_isSome_iff (d : List (String × String)) (n : String) :
    (alookup d n).isSome ↔ n ∈ d.map Prod.fst := by
  induction d with
  | nil => simp [alookup]
  | cons hd tl ih =>
    obtain ⟨k, v⟩ := hd
    by_cases h : k = n
    · subst h; simp [alookup]
    · have h₂ : ¬ n = k := fun hh => h hh.symm
      simp [alookup, h, h₂, ih]

theorem alookup_decodeLineAux_isSome (layout : List (String × Nat)) (cs : List Char)
    (pos : Nat) (d : List (String × String)) (n : String) :
    (alookup (decodeLineAux layout cs pos d) n).isSome
      ↔ (alookup d n).isSome ∨ n ∈ layout.map Prod.fst := by
  induction layout generalizing pos d with
  | nil => simp [decodeLineAux]
  | cons hd tl ih =>
    obtain ⟨name, w⟩ := hd
    rw [decodeLineAux, ih]
    by_cases h : name = n
    · subst h; simp [alookup_pyInsert_self]
    · have h₂ : ¬ n = name := fun hh => h hh.symm
      rw [alookup_pyInsert_ne _ _ _ _ h]
      simp [h₂]

theorem mem_parse_shape {text : String} {layout : List (String × Nat)}
    {r : List (String × String)} (h : r ∈ parse_fixed_length_data text layout) :
    ∃ l, r = decodeLineAux layout l 0 [] := by
  simp only [parse_fixed_length_data, List.mem_filterMap, List.mem_filter] at h
  obtain ⟨l, _, hr⟩ := h
  split at hr
  · exact ⟨l, (Option.some.inj hr).symm⟩
  · exact absurd hr (by simp)

theorem all_some_eq_map (cells : List (Option String)) (h : ∀ c ∈ cells, c.isSome) :
    cells = (cells.filterMap id).map some := by
  induction cells with
  | nil => rfl
  | cons c rest ih =>
    obtain ⟨a, rfl⟩ := Option.isSome_iff_exists.1 (h c (by simp))
    simp only [List.filterMap_cons, id, List.map_cons]
    exact congrArg _ (ih fun x hx => h x (by simp [hx]))

/-- C2: for every column of the profile of a non-empty decoded-record set,
the value counts sum to the total count and the unique count is the size of
the value-count mapping. -/
theorem C2 (layout : List (String × Nat)) (text : String) (col : String) (p : ColProfile)
    (hne : parse_fixed_length_data text layout ≠ [])
    (hmem : (col, p) ∈ profile_data (parse_fixed_length_data text layout)) :
    (p.value_counts.map Prod.snd).sum = p.total_count
    ∧ p.unique_count = p.value_counts.length := by
  have hempty : ¬ ((parse_fixed_length_data text layout).isEmpty = true) := by
    cases hd : parse_fixed_length_data text layout
    · exact absurd hd hne
    · simp
  rw [profile_data, if_neg hempty, List.mem_map] at hmem
  obtain ⟨c, hc, hcp⟩ := hmem
  obtain ⟨rfl, rfl⟩ : c = col ∧ p = profileColumn (colCells (parse_fixed_length_data text layout) c) := by
    have h1 := congrArg Prod.fst hcp
    have h2 := congrArg Prod.snd hcp
    exact ⟨h1, h2.symm⟩
  -- the column name appears in the layout
  have hcol : c ∈ layout.map Prod.fst := by
    rw [dfColumns, List.mem_dedup, List.mem_flatMap] at hc
    obtain ⟨r, hr, hcr⟩ := hc
    obtain ⟨l, rfl⟩ := mem_parse_shape hr
    have := (alookup_isSome_iff _ c).2 hcr
    rw [alookup_decodeLineAux_isSome] at this
    simpa [alookup] using this
  -- hence every cell of the column is present (no NaN)
  have hsome : ∀ x ∈ colCells (parse_fixed_length_data text layout) c, x.isSome := by
    intro x hx
    rw [colCells, List.mem_map] at hx
    obtain ⟨r, hr, rfl⟩ := hx
    obtain ⟨l, rfl⟩ := mem_parse_shape hr
    rw [alookup_decodeLineAux_isSome]
    exact Or.inr hcol
  set cells := colCells (parse_fixed_length_data text layout) c with hcells
  constructor
  · simp only [profileColumn, List.map_map]
    exact List.sum_map_count_dedup_eq_length _
  · simp only [profileColumn, List.length_map]
    rw [all_some_eq_map cells hsome,
      List.dedup_map_of_injective (Option.some_injective String),
      List.length_map, List.filterMap_map]
    simp [Function.comp_def]

theorem C2_witness :
    ((⟨2, 2, 1, [("x", 1), ("y", 1)], some 1, some 1⟩ : ColProfile).value_counts.map
        Prod.snd).sum
      = (⟨2, 2, 1, [("x", 1), ("y", 1)], some 1, some 1⟩ : ColProfile).total_count
    ∧ (⟨2, 2, 1, [("x", 1), ("y", 1)], some 1, some 1⟩ : ColProfile).unique_count
      = (⟨2, 2, 1, [("x", 1), ("y", 1)], some 1, some 1⟩ : ColProfile).value_counts.length :=
  C2 [("a", 1)] "x\ny" "a" ⟨2, 2, 1, [("x", 1), ("y", 1)], some 1, some 1⟩
    (by decide) (by decide)

/-! ### Theorems: decimal rendering arithmetic -/

theorem pyStrAux_append (fuel : Nat) :
    ∀ n acc, pyStrAux fuel n acc = pyStrAux fuel n [] ++ acc := by
  induction fuel with
  | zero => intro n acc; rfl
  | succ f ih =>
    intro n acc
    by_cases h : n = 0
    · simp [pyStrAux, h]
    · rw [pyStrAux, if_neg h, pyStrAux, if_neg h,
        ih (n / 10) (Char.ofNat (48 + n % 10) :: acc),
        ih (n / 10) [Char.ofNat (48 + n % 10)], List.append_assoc, List.singleton_append]

theorem digit_toNat (r : Nat) (h : r < 10) : (Char.ofNat (48 + r)).toNat = 48 + r := by
  interval_cases r <;> decide

theorem digitsVal_append (xs ys : List Char) :
    digitsVal (xs ++ ys) = ys.foldl (fun a c => a * 10 + (c.toNat - 48)) (digitsVal xs) := by
  simp [digitsVal, List.foldl_append]

theorem digitsVal_pyStrAux :
    ∀ fuel n, n ≤ fuel → digitsVal (pyStrAux fuel n []) = n := by
  intro fuel
  induction fuel with
  | zero =>
    intro n h
    have : n = 0 := by omega
    subst this
    rfl
  | succ f ih =>
    intro n h
    by_cases h0 : n = 0
    · subst h0; rfl
    · rw [pyStrAux, if_neg h0, pyStrAux_append, digitsVal_append]
      simp only [List.foldl_cons, List.foldl_nil]
      have hdiv : n / 10 ≤ f := by
        have := Nat.div_lt_self (Nat.pos_of_ne_zero h0) (by omega : 1 < 10)
        omega
      rw [ih (n / 10) hdiv, digit_toNat _ (Nat.mod_lt _ (by omega))]
      omega

theorem digitsVal_pyStr (n : Nat) : digitsVal (pyStr n).data = n := by
  by_cases h : n = 0
  · subst h; decide
  · rw [pyStr, if_neg h]; exact digitsVal_pyStrAux n n (le_refl n)

theorem pyStrAux_chars :
    ∀ fuel n acc c, c ∈ pyStrAux fuel n acc →
      c ∈ acc ∨ ∃ r, r < 10 ∧ c = Char.ofNat (48 + r) := by
  intro fuel
  induction fuel with
  | zero => intro n acc c hc; exact Or.inl hc
  | succ f ih =>
    intro n acc c hc
    by_cases h0 : n = 0
    · rw [pyStrAux, if_pos h0] at hc; exact Or.inl hc
    · rw [pyStrAux, if_neg h0] at hc
      rcases ih (n / 10) _ c hc with h | h
      · rcases List.mem_cons.1 h with h | h
        · exact Or.inr ⟨n % 10, Nat.mod_lt _ (by omega), h⟩
        · exact Or.inl h
      · exact Or.inr h

theorem pyStr_ne_sign (n : Nat) : ∀ c ∈ (pyStr n).data, c ≠ '+' ∧ c ≠ '-' := by
  intro c hc
  by_cases h : n = 0
  · subst h
    have : c = '0' := by simpa [pyStr] using hc
    subst this
    decide
  · rw [pyStr, if_neg h] at hc
    rcases pyStrAux_chars n n [] c hc with h₂ | ⟨r, hr, rfl⟩
    · cases h₂
    · constructor <;> intro heq <;>
        (have h2 := congrArg Char.toNat heq; rw [digit_toNat r hr] at h2) <;>
        revert h2 <;> interval_cases r <;> decide

theorem pyStr_ne_nil (n : Nat) : (pyStr n).data ≠ [] := by
  by_cases h : n = 0
  · subst h; decide
  · rw [pyStr, if_neg h]
    match n, h with
    | m + 1, h =>
      rw [pyStrAux, if_neg h, pyStrAux_append]
      simp

theorem digitsVal_replicate_zero (m : Nat) (ds : List Char) :
    digitsVal (List.replicate m '0' ++ ds) = digitsVal ds := by
  induction m with
  | zero => simp
  | succ k ih =>
    rw [List.replicate_succ, List.cons_append]
    show List.foldl _ ((0 : Nat) * 10 + ('0'.toNat - 48)) _ = _
    simpa [digitsVal] using ih

theorem digitsVal_zfill_pyStr (k L : Nat) :
    digitsVal ((pyZfill (pyStr k) L).data) = k := by
  show digitsVal (zfillList (pyStr k).data L) = k
  rw [zfillList.eq_def]
  by_cases h : L ≤ (pyStr k).data.length
  · rw [if_pos h]; exact digitsVal_pyStr k
  · rw [if_neg h]
    cases hd : (pyStr k).data with
    | nil => exact absurd hd (pyStr_ne_nil k)
    | cons c rest =>
      have hsign := pyStr_ne_sign k c (by rw [hd]; simp)
      dsimp only
      rw [if_neg (by rcases hsign with ⟨h1, h2⟩; rintro (h | h) <;> contradiction)]
      rw [digitsVal_replicate_zero, ← hd, digitsVal_pyStr]

/-! ### Theorems: synthetic generator, shared machinery -/

theorem alookup_of_mem_nodup {α : Type} {l : List (String × α)} {k : String} {v : α}
    (hnd : (l.map Prod.fst).Nodup) (hm : (k, v) ∈ l) : alookup l k = some v := by
  induction l with
  | nil => cases hm
  | cons hd tl ih =>
    obtain ⟨k₀, v₀⟩ := hd
    simp only [List.map_cons, List.nodup_cons] at hnd
    rcases List.mem_cons.1 hm with h | h
    · injection h with h1 h2
      subst h1; subst h2
      simp [alookup]
    · have hk : k₀ ≠ k := fun he => hnd.1 (he ▸ List.mem_map.2 ⟨(k, v), h, rfl⟩)
      simp only [alookup]
      rw [if_neg hk]
      exact ih hnd.2 h

theorem getD_cons_self_mem {α : Type} (x : α) (xs : List α) (i : Nat) :
    (x :: xs).getD i x ∈ x :: xs := by
  rw [List.getD]
  cases hg : (x :: xs).get? i with
  | none => simp
  | some y => simpa using List.get?_mem hg

theorem drawChars_counters (stream : Nat → Nat) (k : Nat) :
    ∀ st : GenSt, (drawChars stream st k).2.counters = st.counters := by
  induction k with
  | zero => intro st; rfl
  | succ n ih => intro st; simp [drawChars, draw, ih]

theorem genValue_seq (stream : Nat → Nat) (stats : ColStats) (col : String) (st : GenSt)
    (hp : stats.pattern = some "SEQUENCE") :
    genValue stream stats col st
      = .ok (pyZfill (pyStr ((alookup st.counters col).getD 0 + 1)) (stats.max_length.getD 0),
          { st with counters := pyInsert st.counters col ((alookup st.counters col).getD 0 + 1) }) := by
  rw [genValue, if_neg (by simp [hp]), if_pos hp]

theorem genValue_enum_empty (stream : Nat → Nat) (stats : ColStats) (col : String)
    (st : GenSt) (hp : stats.pattern = some "ENUM")
    (hvc : stats.value_counts = none ∨ stats.value_counts = some []) :
    genValue stream stats col st = .error .indexError := by
  rw [genValue, if_pos hp]
  rcases hvc with h | h <;> simp [h, draw]

theorem genValue_enum_ok (stream : Nat → Nat) (stats : ColStats) (col : String)
    (st : GenSt) (v : String) (st₂ : GenSt) (hp : stats.pattern = some "ENUM")
    (hok : genValue stream stats col st = .ok (v, st₂)) :
    v ∈ (stats.value_counts.getD []).map Prod.fst := by
  rw [genValue, if_pos hp] at hok
  simp only [draw] at hok
  cases hc : (stats.value_counts.getD []).map Prod.fst with
  | nil => rw [hc] at hok; simp at hok
  | cons x xs =>
    rw [hc] at hok
    simp only [Except.ok.injEq, Prod.mk.injEq] at hok
    rw [← hok.1]
    exact getD_cons_self_mem x xs _

theorem genValue_counters (stream : Nat → Nat) (stats : ColStats) (col : String)
    (st : GenSt) (v : String) (st₂ : GenSt)
    (hok : genValue stream stats col st = .ok (v, st₂)) (k : String) (hk : k ≠ col) :
    alookup st₂.counters k = alookup st.counters k := by
  rw [genValue] at hok
  split_ifs at hok with h1 h2 h3 h4
  · -- ENUM
    simp only [draw] at hok
    split at hok
    · exact absurd hok (by simp)
    · simp only [Except.ok.injEq, Prod.mk.injEq] at hok
      rw [← hok.2]
  · -- SEQUENCE
    simp only [Except.ok.injEq, Prod.mk.injEq] at hok
    rw [← hok.2]
    exact alookup_pyInsert_ne st.counters col _ k (fun he => hk he.symm)
  · -- NUMBER
    simp only [draw] at hok
    split_ifs at hok <;> simp only [Except.ok.injEq, Prod.mk.injEq] at hok <;> rw [← hok.2]
  · -- DATE
    simp only [draw] at hok
    split at hok
    · exact absurd hok (by simp)
    · simp only [Except.ok.injEq, Prod.mk.injEq] at hok; rw [← hok.2]
    · split at hok
      · exact absurd hok (by simp)
      · simp only [Except.ok.injEq, Prod.mk.injEq] at hok; rw [← hok.2]
      · split_ifs at hok <;> simp only [Except.ok.injEq, Prod.mk.injEq] at hok <;>
          rw [← hok.2]
  · -- random string
    simp only [draw] at hok
    split_ifs at hok
    simp only [Except.ok.injEq, Prod.mk.injEq] at hok
    rw [← hok.2, drawChars_counters]

theorem genRecord_counters (stream : Nat → Nat) (profile : List (String × ColStats)) :
    ∀ (columns : List String) (st : GenSt) (r : List (String × String)) (st₂ : GenSt),
      genRecord stream profile columns st = .ok (r, st₂) →
      ∀ k, k ∉ columns → alookup st₂.counters k = alookup st.counters k := by
  intro columns
  induction columns with
  | nil => intro st r st₂ hok k _; cases hok; rfl
  | cons c rest ih =>
    intro st r st₂ hok k hk
    rw [genRecord] at hok
    cases hv : genValue stream ((alookup profile c).getD {}) c st with
    | error e => rw [hv] at hok; cases hok
    | ok p =>
      obtain ⟨v, st₁⟩ := p
      rw [hv] at hok
      dsimp only at hok
      cases hr : genRecord stream profile rest st₁ with
      | error e => rw [hr] at hok; cases hok
      | ok q =>
        obtain ⟨r₀, stB⟩ := q
        rw [hr] at hok
        simp only [Except.ok.injEq, Prod.mk.injEq] at hok
        rw [← hok.2]
        rw [ih st₁ r₀ stB hr k (fun h => hk (List.mem_cons_of_mem _ h))]
        exact genValue_counters _ _ _ _ _ _ hv k (fun h => hk (h ▸ List.mem_cons_self c rest))

theorem genRecord_lookup (stream : Nat → Nat) (profile : List (String × ColStats)) :
    ∀ (columns : List String) (st : GenSt) (r : List (String × String)) (st₂ : GenSt)
      (col : String) (v : String),
      genRecord stream profile columns st = .ok (r, st₂) →
      alookup r col = some v →
      ∃ stA stB, genValue stream ((alookup profile col).getD {}) col stA = .ok (v, stB) := by
  intro columns
  induction columns with
  | nil => intro st r st₂ col v hok hv; cases hok; cases hv
  | cons c rest ih =>
    intro st r st₂ col v hok hv
    rw [genRecord] at hok
    cases hgv : genValue stream ((alookup profile c).getD {}) c st with
    | error e => rw [hgv] at hok; cases hok
    | ok p =>
      obtain ⟨v₀, st₁⟩ := p
      rw [hgv] at hok
      dsimp only at hok
      cases hgr : genRecord stream profile rest st₁ with
      | error e => rw [hgr] at hok; cases hok
      | ok q =>
        obtain ⟨r₀, stB⟩ := q
        rw [hgr] at hok
        simp only [Except.ok.injEq, Prod.mk.injEq] at hok
        rw [← hok.1] at hv
        by_cases hc : c = col
        · subst hc
          rw [alookup_cons_self] at hv
          cases hv
          exact ⟨st, st₁, hgv⟩
        · rw [alookup_cons_ne _ _ _ _ hc] at hv
          exact ih st₁ r₀ stB col v hgr hv

theorem genLoop_mem (stream : Nat → Nat) (profile : List (String × ColStats))
    (columns : List String) :
    ∀ (n : Nat) (st : GenSt) (recs : List (List (String × String))) (st₂ : GenSt)
      (r : List (String × String)),
      genLoop stream profile columns n st = .ok (recs, st₂) → r ∈ recs →
      ∃ stA stB, genRecord stream profile columns stA = .ok (r, stB) := by
  intro n
  induction n with
  | zero => intro st recs st₂ r hok hr; cases hok; cases hr
  | succ m ih =>
    intro st recs st₂ r hok hr
    rw [genLoop] at hok
    cases hgr : genRecord stream profile columns st with
    | error e => rw [hgr] at hok; cases hok
    | ok p =>
      obtain ⟨r₀, st₁⟩ := p
      rw [hgr] at hok
      dsimp only at hok
      cases hgl : genLoop stream profile columns m st₁ with
      | error e => rw [hgl] at hok; cases hok
      | ok q =>
        obtain ⟨rs, stB⟩ := q
        rw [hgl] at hok
        simp only [Except.ok.injEq, Prod.mk.injEq] at hok
        rw [← hok.1] at hr
        rcases List.mem_cons.1 hr with h | h
        · exact ⟨st, st₁, h ▸ hgr⟩
        · exact ih st₁ rs stB r hgl h

theorem generate_lookup (profile : List (String × ColStats)) (volume : Nat)
    (stream : Nat → Nat) (recs : List (List (String × String)))
    (r : List (String × String)) (col : String) (v : String)
    (hok : generate_synthetic_data profile volume stream = .ok recs)
    (hr : r ∈ recs) (hv : alookup r col = some v) :
    ∃ stA stB, genValue stream ((alookup profile col).getD {}) col stA = .ok (v, stB) := by
  rw [generate_synthetic_data] at hok
  cases hgl : genLoop stream profile (profile.map Prod.fst)
      volume ⟨(profile.filter (fun p => p.2.pattern == some "SEQUENCE")).map
        (fun p => (p.1, 0)), 0⟩ with
  | error e => rw [hgl] at hok; cases hok
  | ok q =>
    obtain ⟨rs, st₂⟩ := q
    rw [hgl] at hok
    simp only [Except.ok.injEq] at hok
    subst hok
    obtain ⟨stA, stB, hgr⟩ := genLoop_mem stream profile _ volume _ rs st₂ r hgl hr
    exact genRecord_lookup stream profile _ stA r stB col v hgr hv

/-! ### Theorems: generator claims C10 and C6 -/

theorem genRecord_enum_err (stream : Nat → Nat) (profile : List (String × ColStats))
    (col : String) (stats : ColStats)
    (hstats : alookup profile col = some stats)
    (hp : stats.pattern = some "ENUM")
    (hvc : stats.value_counts = none ∨ stats.value_counts = some []) :
    ∀ (columns : List String) (st : GenSt), col ∈ columns →
      ∃ e, genRecord stream profile columns st = .error e := by
  intro columns
  induction columns with
  | nil => intro st h; cases h
  | cons c rest ih =>
    intro st hcol
    by_cases hc : c = col
    · subst hc
      refine ⟨.indexError, ?_⟩
      have hred : (alookup profile c).getD {} = stats := by rw [hstats]; rfl
      simp only [genRecord, hred]
      rw [genValue_enum_empty stream stats c st hp hvc]
    · rcases List.mem_cons.1 hcol with h | h
      · exact absurd h.symm hc
      · cases hgv : genValue stream ((alookup profile c).getD {}) c st with
        | error e => exact ⟨e, by simp only [genRecord, hgv]⟩
        | ok p =>
          obtain ⟨v, st₁⟩ := p
          obtain ⟨e, he⟩ := ih st₁ h
          refine ⟨e, ?_⟩
          simp only [genRecord, hgv]
          rw [he]

/-- C10: a profile containing an ENUM column with a missing or empty
`value_counts`, at any positive volume, makes the generator raise (the ENUM
branch applies `random.choice` to an empty candidate list, `IndexError`) and
abort the whole run with no records produced. -/
theorem C10 (profile : List (String × ColStats)) (volume : Nat) (stream : Nat → Nat)
    (col : String) (stats : ColStats)
    (hnd : (profile.map Prod.fst).Nodup)
    (hmem : (col, stats) ∈ profile)
    (hp : stats.pattern = some "ENUM")
    (hvc : stats.value_counts = none ∨ stats.value_counts = some [])
    (hvol : 1 ≤ volume) :
    ∃ e, generate_synthetic_data profile volume stream = .error e := by
  obtain ⟨n, rfl⟩ : ∃ n, volume = n + 1 := ⟨volume - 1, by omega⟩
  have hcol : col ∈ profile.map Prod.fst := List.mem_map.2 ⟨(col, stats), hmem, rfl⟩
  obtain ⟨e, he⟩ := genRecord_enum_err stream profile col stats
    (alookup_of_mem_nodup hnd hmem) hp hvc (profile.map Prod.fst)
    ⟨(profile.filter (fun p => p.2.pattern == some "SEQUENCE")).map (fun p => (p.1, 0)), 0⟩
    hcol
  exact ⟨e, by rw [generate_synthetic_data, genLoop, he]⟩

theorem C10_witness :
    ∃ e, generate_synthetic_data [("c", { pattern := some "ENUM" })] 1 (fun _ => 0)
      = .error e :=
  C10 [("c", { pattern := some "ENUM" })] 1 (fun _ => 0) "c" { pattern := some "ENUM" }
    (by simp) (by simp) rfl (Or.inl rfl) (by omega)

/-- C6: every value the generator emits for an ENUM column with observed
`value_counts` is one of that mapping's keys. -/
theorem C6 (profile : List (String × ColStats)) (volume : Nat) (stream : Nat → Nat)
    (col : String) (stats : ColStats) (vc : List (String × Nat))
    (recs : List (List (String × String)))
    (hnd : (profile.map Prod.fst).Nodup)
    (hmem : (col, stats) ∈ profile)
    (hp : stats.pattern = some "ENUM")
    (hvc : stats.value_counts = some vc)
    (hgen : generate_synthetic_data profile volume stream = .ok recs) :
    ∀ r ∈ recs, ∀ v, alookup r col = some v → v ∈ vc.map Prod.fst := by
  intro r hr v hv
  obtain ⟨stA, stB, hgv⟩ := generate_lookup profile volume stream recs r col v hgen hr hv
  rw [alookup_of_mem_nodup hnd hmem] at hgv
  have h := genValue_enum_ok stream stats col stA v stB hp (by simpa using hgv)
  simpa [hvc] using h

theorem C6_witness :
    ("B" : String) ∈ ([("A", 2), ("B", 1)] : List (String × Nat)).map Prod.fst :=
  C6 [("c", { pattern := some "ENUM", value_counts := some [("A", 2), ("B", 1)] })]
    2 (fun _ => 1) "c" { pattern := some "ENUM", value_counts := some [("A", 2), ("B", 1)] }
    [("A", 2), ("B", 1)] [[("c", "B")], [("c", "B")]]
    (by simp) (by simp) rfl rfl (by decide)
    [("c", "B")] (by decide) "B" rfl

/-! ### Theorems: generator claim C3 (SEQUENCE) -/

theorem genRecord_seq_col (stream : Nat → Nat) (profile : List (String × ColStats))
    (col : String) (stats : ColStats)
    (hstats : alookup profile col = some stats)
    (hp : stats.pattern = some "SEQUENCE") :
    ∀ (columns : List String) (st : GenSt) (r : List (String × String)) (st₂ : GenSt),
      columns.Nodup → col ∈ columns →
      genRecord stream profile columns st = .ok (r, st₂) →
      alookup r col = some (pyZfill (pyStr ((alookup st.counters col).getD 0 + 1))
          (stats.max_length.getD 0))
      ∧ alookup st₂.counters col = some ((alookup st.counters col).getD 0 + 1) := by
  intro columns
  induction columns with
  | nil => intro st r st₂ _ h; cases h
  | cons c rest ih =>
    intro st r st₂ hnd hcol hok
    simp only [List.nodup_cons] at hnd
    rw [genRecord] at hok
    by_cases hc : c = col
    · subst hc
      have hred : (alookup profile c).getD {} = stats := by rw [hstats]; rfl
      rw [hred, genValue_seq stream stats c st hp] at hok
      dsimp only at hok
      cases hgr : genRecord stream profile rest
          { st with counters := pyInsert st.counters c ((alookup st.counters c).getD 0 + 1) } with
      | error e => rw [hgr] at hok; cases hok
      | ok q =>
        obtain ⟨r₀, stB⟩ := q
        rw [hgr] at hok
        simp only [Except.ok.injEq, Prod.mk.injEq] at hok
        constructor
        · rw [← hok.1, alookup_cons_self]
        · rw [← hok.2]
          rw [genRecord_counters stream profile rest _ r₀ stB hgr c hnd.1]
          show alookup (pyInsert st.counters c _) c = _
          rw [alookup_pyInsert_self]
    · have hcol₂ : col ∈ rest := by
        rcases List.mem_cons.1 hcol with h | h
        · exact absurd h.symm hc
        · exact h
      cases hgv : genValue stream ((alookup profile c).getD {}) c st with
      | error e => rw [hgv] at hok; cases hok
      | ok p =>
        obtain ⟨v, st₁⟩ := p
        rw [hgv] at hok
        dsimp only at hok
        cases hgr : genRecord stream profile rest st₁ with
        | error e => rw [hgr] at hok; cases hok
        | ok q =>
          obtain ⟨r₀, stB⟩ := q
          rw [hgr] at hok
          simp only [Except.ok.injEq, Prod.mk.injEq] at hok
          have hcnt : alookup st₁.counters col = alookup st.counters col :=
            genValue_counters _ _ _ _ _ _ hgv col (fun he => hc he.symm)
          obtain ⟨ih1, ih2⟩ := ih st₁ r₀ stB hnd.2 hcol₂ hgr
          rw [hcnt] at ih1 ih2
          constructor
          · rw [← hok.1, alookup_cons_ne _ _ _ _ hc, ih1]
          · rw [← hok.2, ih2]

theorem genLoop_seq (stream : Nat → Nat) (profile : List (String × ColStats))
    (columns : List String) (col : String) (stats : ColStats)
    (hstats : alookup profile col = some stats)
    (hp : stats.pattern = some "SEQUENCE")
    (hnd : columns.Nodup) (hcol : col ∈ columns) :
    ∀ (n : Nat) (st : GenSt) (recs : List (List (String × String))) (st₂ : GenSt),
      genLoop stream profile columns n st = .ok (recs, st₂) →
      recs.map (fun r => alookup r col)
        = (List.range n).map (fun k =>
            some (pyZfill (pyStr ((alookup st.counters col).getD 0 + k + 1))
              (stats.max_length.getD 0))) := by
  intro n
  induction n with
  | zero => intro st recs st₂ hok; cases hok; rfl
  | succ m ih =>
    intro st recs st₂ hok
    rw [genLoop] at hok
    cases hgr : genRecord stream profile columns st with
    | error e => rw [hgr] at hok; cases hok
    | ok p =>
      obtain ⟨r₀, st₁⟩ := p
      rw [hgr] at hok
      dsimp only at hok
      cases hgl : genLoop stream profile columns m st₁ with
      | error e => rw [hgl] at hok; cases hok
      | ok q =>
        obtain ⟨rs, stB⟩ := q
        rw [hgl] at hok
        simp only [Except.ok.injEq, Prod.mk.injEq] at hok
        obtain ⟨hv, hcnt⟩ := genRecord_seq_col stream profile col stats hstats hp
          columns st r₀ st₁ hnd hcol hgr
        have hrest := ih st₁ rs stB hgl
        rw [hcnt] at hrest
        simp only [Option.getD_some] at hrest
        rw [← hok.1, List.map_cons, hv, hrest, List.range_succ_eq_map, List.map_cons,
          List.map_map]
        congr 1
        apply List.map_congr_left
        intro k _
        simp only [Function.comp]
        have harith : (alookup st.counters col).getD 0 + 1 + k + 1
            = (alookup st.counters col).getD 0 + (k + 1) + 1 := by omega
        rw [harith]

theorem filterMap_congr_some {β γ : Type} (rs : List β) (f : β → Option γ) (gs : List γ)
    (h : rs.map f = gs.map some) : rs.filterMap f = gs := by
  induction rs generalizing gs with
  | nil =>
    cases gs with
    | nil => rfl
    | cons g gtl => simp at h
  | cons r rest ih =>
    cases gs with
    | nil => simp at h
    | cons g gtl =>
      simp only [List.map_cons, List.cons.injEq] at h
      rw [List.filterMap_cons, h.1]
      exact congrArg _ (ih _ h.2)

theorem init_counter (profile : List (String × ColStats)) (col : String) (stats : ColStats)
    (hnd : (profile.map Prod.fst).Nodup) (hmem : (col, stats) ∈ profile)
    (hp : stats.pattern = some "SEQUENCE") :
    alookup ((profile.filter (fun p => p.2.pattern == some "SEQUENCE")).map
      (fun p => (p.1, (0 : Nat)))) col = some 0 := by
  have hmem₂ : (col, (0 : Nat)) ∈ (profile.filter
      (fun p => p.2.pattern == some "SEQUENCE")).map (fun p => (p.1, (0 : Nat))) :=
    List.mem_map.2 ⟨(col, stats), List.mem_filter.2 ⟨hmem, by simp [hp]⟩, rfl⟩
  apply alookup_of_mem_nodup ?_ hmem₂
  have hkeys : ((profile.filter (fun p => p.2.pattern == some "SEQUENCE")).map
        (fun p => (p.1, (0 : Nat)))).map Prod.fst
      = (profile.filter (fun p => p.2.pattern == some "SEQUENCE")).map Prod.fst := by
    simp [List.map_map, Function.comp]
  rw [hkeys]
  exact List.Nodup.sublist ((List.filter_sublist _).map Prod.fst) hnd

/-- C3: for a SEQUENCE column with `max_length = L`, a successful run of
volume `N` emits for that column exactly `str(1).zfill(L) .. str(N).zfill(L)`
in that order, strictly increasing as decimal values, with no duplicates; the
counter starts at 0 and is carried across the whole run. -/
theorem C3 (profile : List (String × ColStats)) (volume : Nat) (stream : Nat → Nat)
    (col : String) (stats : ColStats) (L : Nat) (recs : List (List (String × String)))
    (hnd : (profile.map Prod.fst).Nodup)
    (hmem : (col, stats) ∈ profile)
    (hp : stats.pattern = some "SEQUENCE")
    (hL : stats.max_length = some L)
    (hgen : generate_synthetic_data profile volume stream = .ok recs) :
    recs.filterMap (fun r => alookup r col)
        = (List.range volume).map (fun k => pyZfill (pyStr (k + 1)) L)
    ∧ (recs.filterMap (fun r => alookup r col)).Pairwise
        (fun a b => digitsVal a.data < digitsVal b.data)
    ∧ (recs.filterMap (fun r => alookup r col)).Nodup := by
  rw [generate_synthetic_data] at hgen
  cases hgl : genLoop stream profile (profile.map Prod.fst) volume
      ⟨(profile.filter (fun p => p.2.pattern == some "SEQUENCE")).map
        (fun p => (p.1, 0)), 0⟩ with
  | error e => rw [hgl] at hgen; cases hgen
  | ok q =>
    obtain ⟨rs, stB⟩ := q
    rw [hgl] at hgen
    simp only [Except.ok.injEq] at hgen
    subst hgen
    have hmap := genLoop_seq stream profile (profile.map Prod.fst) col stats
      (alookup_of_mem_nodup hnd hmem) hp hnd (List.mem_map.2 ⟨(col, stats), hmem, rfl⟩)
      volume _ rs stB hgl
    dsimp only at hmap
    rw [init_counter profile col stats hnd hmem hp] at hmap
    simp only [Option.getD_some, Nat.zero_add, hL] at hmap
    have hmap₂ : rs.map (fun r => alookup r col)
        = ((List.range volume).map (fun k => pyZfill (pyStr (k + 1)) L)).map some := by
      rw [List.map_map]
      exact hmap
    have heq : rs.filterMap (fun r => alookup r col)
        = (List.range volume).map (fun k => pyZfill (pyStr (k + 1)) L) :=
      filterMap_congr_some _ _ _ hmap₂
    have hpw : ((List.range volume).map
        (fun k => pyZfill (pyStr (k + 1)) L)).Pairwise
          (fun a b => digitsVal a.data < digitsVal b.data) := by
      refine List.Pairwise.map _ ?_ (List.pairwise_lt_range volume)
      intro a b hab
      rw [digitsVal_zfill_pyStr, digitsVal_zfill_pyStr]
      omega
    refine ⟨heq, heq ▸ hpw, heq ▸ hpw.imp ?_⟩
    intro a b h heq2
    rw [heq2] at h
    exact lt_irrefl _ h

theorem C3_witness :
    ([[("c", "001")], [("c", "002")]] : List (List (String × String))).filterMap
        (fun r => alookup r "c")
      = (List.range 2).map (fun k => pyZfill (pyStr (k + 1)) 3)
    ∧ (([[("c", "001")], [("c", "002")]] : List (List (String × String))).filterMap
        (fun r => alookup r "c")).Pairwise
        (fun a b => digitsVal a.data < digitsVal b.data)
    ∧ (([[("c", "001")], [("c", "002")]] : List (List (String × String))).filterMap
        (fun r => alookup r "c")).Nodup :=
  C3 [("c", { pattern := some "SEQUENCE", max_length := some 3 })] 2 (fun _ => 0) "c"
    { pattern := some "SEQUENCE", max_length := some 3 } 3
    [[("c", "001")], [("c", "002")]]
    (by decide) (by decide) rfl rfl (by decide)

/-! ### Theorems: generator DATE claims C4 and C9 -/

theorem genValue_date_red (stream : Nat → Nat) (stats : ColStats) (col : String)
    (st : GenSt) (g : GenGuidelines) (fmt minS maxS : String)
    (hp : stats.pattern = some "DATE") (hg : stats.generation_guidelines = some g)
    (hfmt : g.date_format = some fmt) (hmin : g.min_date = some minS)
    (hmax : g.max_date = some maxS) :
    genValue stream stats col st
      = (match strptimeFrag fmt minS with
         | .error .reError => .error .reError
         | .error _ => .ok ("00000000", st)
         | .ok dmin =>
           match strptimeFrag fmt maxS with
           | .error .reError => .error .reError
           | .error _ => .ok ("00000000", st)
           | .ok dmax =>
             if daysOfDate dmax.1 dmax.2.1 dmax.2.2 < daysOfDate dmin.1 dmin.2.1 dmin.2.2
             then .ok ("00000000", { st with pos := st.pos + 1 })
             else .ok (strftimeFrag fmt (dateOfDays
                 (daysOfDate dmin.1 dmin.2.1 dmin.2.2
                   + stream st.pos % (daysOfDate dmax.1 dmax.2.1 dmax.2.2
                       - daysOfDate dmin.1 dmin.2.1 dmin.2.2 + 1))),
               { st with pos := st.pos + 1 })) := by
  rw [genValue, if_neg (by simp [hp]), if_neg (by simp [hp]), if_neg (by simp [hp]),
    if_pos hp, hg]
  simp only [Option.getD_some, hfmt, hmin, hmax, draw]

theorem genValue_date_default (stream : Nat → Nat) (stats : ColStats) (col : String)
    (st : GenSt) (hp : stats.pattern = some "DATE")
    (hg : stats.generation_guidelines = none) :
    genValue stream stats col st
      = .ok (strftimeFrag "%Y%m%d" (dateOfDays (daysOfDate 2000 1 1
            + stream st.pos % (daysOfDate 2025 12 31 - daysOfDate 2000 1 1 + 1))),
          { st with pos := st.pos + 1 }) := by
  rw [genValue, if_neg (by simp [hp]), if_neg (by simp [hp]), if_neg (by simp [hp]),
    if_pos hp, hg]
  simp only [Option.getD_none, draw]
  have h1 : strptimeFrag "%Y%m%d" "20000101" = .ok (2000, 1, 1) := by decide
  have h2 : strptimeFrag "%Y%m%d" "20251231" = .ok (2025, 12, 31) := by decide
  rw [h1, h2]
  dsimp only
  rw [if_neg (by decide)]

/-- C4 counterexample: with no guidelines the generator (at the all-zero
stream draw) emits `"20000101"` — a year-month-day rendering from the default
bounds — and no month-day-year concatenation of the claim's ranges (year
2000–2025, month 1–12, day 1–28) can produce that string. -/
theorem C4_cex :
    generate_synthetic_data [("c", { pattern := some "DATE" })] 1 (fun _ => 0)
        = .ok [[("c", "20000101")]]
    ∧ ∀ y m d : Nat, 2000 ≤ y → y ≤ 2025 → 1 ≤ m → m ≤ 12 → 1 ≤ d → d ≤ 28 →
        specMonthDayYear y m d ≠ "20000101" := by
  constructor
  · decide
  · intro y m d hy1 hy2 hm1 hm2 hd1 hd2 heq
    have hhead := congrArg (fun s => s.data.head?) heq
    simp only [specMonthDayYear] at hhead
    by_cases hm : m < 10
    · rw [pad2, if_pos hm] at hhead
      simp at hhead
    · have hm10 : 10 ≤ m := by omega
      interval_cases m
      · rw [pad2, if_neg (by omega), show (pyStr 10).data = ['1', '0'] from by decide]
          at hhead
        simp at hhead
      · rw [pad2, if_neg (by omega), show (pyStr 11).data = ['1', '1'] from by decide]
          at hhead
        simp at hhead
      · rw [pad2, if_neg (by omega), show (pyStr 12).data = ['1', '2'] from by decide]
          at hhead
        simp at hhead

/-- C4 amended: for a DATE column with no generation guidelines, the
generator falls back to the default guidelines (format `%Y%m%d`, bounds
`20000101`–`20251231`): every emitted value for the column is a day drawn
uniformly within that inclusive range, rendered year-month-day. -/
theorem C4_amended (profile : List (String × ColStats)) (volume : Nat)
    (stream : Nat → Nat) (col : String) (stats : ColStats)
    (recs : List (List (String × String)))
    (hnd : (profile.map Prod.fst).Nodup)
    (hmem : (col, stats) ∈ profile)
    (hp : stats.pattern = some "DATE")
    (hg : stats.generation_guidelines = none)
    (hgen : generate_synthetic_data profile volume stream = .ok recs) :
    ∀ r ∈ recs, ∀ v, alookup r col = some v →
      ∃ n, daysOfDate 2000 1 1 ≤ n ∧ n ≤ daysOfDate 2025 12 31
        ∧ v = strftimeFrag "%Y%m%d" (dateOfDays n) := by
  intro r hr v hv
  obtain ⟨stA, stB, hgv⟩ := generate_lookup profile volume stream recs r col v hgen hr hv
  rw [alookup_of_mem_nodup hnd hmem] at hgv
  have hgv₂ : genValue stream stats col stA = .ok (v, stB) := hgv
  rw [genValue_date_default stream stats col stA hp hg] at hgv₂
  simp only [Except.ok.injEq, Prod.mk.injEq] at hgv₂
  refine ⟨daysOfDate 2000 1 1
      + stream stA.pos % (daysOfDate 2025 12 31 - daysOfDate 2000 1 1 + 1),
    by omega, ?_, hgv₂.1.symm⟩
  have hmod : stream stA.pos % (daysOfDate 2025 12 31 - daysOfDate 2000 1 1 + 1)
      ≤ daysOfDate 2025 12 31 - daysOfDate 2000 1 1 := by
    have := Nat.mod_lt (stream stA.pos)
      (show 0 < daysOfDate 2025 12 31 - daysOfDate 2000 1 1 + 1 by omega)
    omega
  have hle : daysOfDate 2000 1 1 ≤ daysOfDate 2025 12 31 := by decide
  omega

theorem C4_amended_witness :
    ∃ n, daysOfDate 2000 1 1 ≤ n ∧ n ≤ daysOfDate 2025 12 31
      ∧ "20000101" = strftimeFrag "%Y%m%d" (dateOfDays n) :=
  C4_amended [("c", { pattern := some "DATE" })] 1 (fun _ => 0) "c"
    { pattern := some "DATE" } [[("c", "20000101")]]
    (by decide) (by decide) rfl rfl (by decide)
    [("c", "20000101")] (by decide) "20000101" rfl

theorem genValue_date_fb_min (stream : Nat → Nat) (stats : ColStats) (col : String)
    (st : GenSt) (g : GenGuidelines) (fmt minS maxS : String)
    (hp : stats.pattern = some "DATE") (hg : stats.generation_guidelines = some g)
    (hfmt : g.date_format = some fmt) (hmin : g.min_date = some minS)
    (hmax : g.max_date = some maxS)
    (hfail : strptimeFrag fmt minS = .error .valueError) :
    genValue stream stats col st = .ok ("00000000", st) := by
  rw [genValue_date_red stream stats col st g fmt minS maxS hp hg hfmt hmin hmax, hfail]

theorem genValue_date_fb_max (stream : Nat → Nat) (stats : ColStats) (col : String)
    (st : GenSt) (g : GenGuidelines) (fmt minS maxS : String)
    (hp : stats.pattern = some "DATE") (hg : stats.generation_guidelines = some g)
    (hfmt : g.date_format = some fmt) (hmin : g.min_date = some minS)
    (hmax : g.max_date = some maxS) (dmin : Nat × Nat × Nat)
    (hok1 : strptimeFrag fmt minS = .ok dmin)
    (hfail : strptimeFrag fmt maxS = .error .valueError) :
    genValue stream stats col st = .ok ("00000000", st) := by
  rw [genValue_date_red stream stats col st g fmt minS maxS hp hg hfmt hmin hmax, hok1]
  dsimp only
  rw [hfail]

theorem genValue_date_fb_inv (stream : Nat → Nat) (stats : ColStats) (col : String)
    (st : GenSt) (g : GenGuidelines) (fmt minS maxS : String)
    (hp : stats.pattern = some "DATE") (hg : stats.generation_guidelines = some g)
    (hfmt : g.date_format = some fmt) (hmin : g.min_date = some minS)
    (hmax : g.max_date = some maxS) (dmin dmax : Nat × Nat × Nat)
    (hok1 : strptimeFrag fmt minS = .ok dmin)
    (hok2 : strptimeFrag fmt maxS = .ok dmax)
    (hlt : daysOfDate dmax.1 dmax.2.1 dmax.2.2 < daysOfDate dmin.1 dmin.2.1 dmin.2.2) :
    genValue stream stats col st = .ok ("00000000", { st with pos := st.pos + 1 }) := by
  rw [genValue_date_red stream stats col st g fmt minS maxS hp hg hfmt hmin hmax, hok1]
  dsimp only
  rw [hok2]
  dsimp only
  rw [if_pos hlt]

theorem genValue_date_ok (stream : Nat → Nat) (stats : ColStats) (col : String)
    (st : GenSt) (g : GenGuidelines) (fmt minS maxS : String)
    (hp : stats.pattern = some "DATE") (hg : stats.generation_guidelines = some g)
    (hfmt : g.date_format = some fmt) (hmin : g.min_date = some minS)
    (hmax : g.max_date = some maxS) (dmin dmax : Nat × Nat × Nat)
    (hok1 : strptimeFrag fmt minS = .ok dmin)
    (hok2 : strptimeFrag fmt maxS = .ok dmax)
    (hle : daysOfDate dmin.1 dmin.2.1 dmin.2.2 ≤ daysOfDate dmax.1 dmax.2.1 dmax.2.2) :
    genValue stream stats col st
      = .ok (strftimeFrag fmt (dateOfDays (daysOfDate dmin.1 dmin.2.1 dmin.2.2
            + stream st.pos % (daysOfDate dmax.1 dmax.2.1 dmax.2.2
                - daysOfDate dmin.1 dmin.2.1 dmin.2.2 + 1))),
          { st with pos := st.pos + 1 }) := by
  rw [genValue_date_red stream stats col st g fmt minS maxS hp hg hfmt hmin hmax, hok1]
  dsimp only
  rw [hok2]
  dsimp only
  rw [if_neg (not_lt.2 hle)]

theorem generate_singleton_date_fb (col : String) (stats : ColStats) (g : GenGuidelines)
    (fmt minS maxS : String)
    (hp : stats.pattern = some "DATE") (hg : stats.generation_guidelines = some g)
    (hfmt : g.date_format = some fmt) (hmin : g.min_date = some minS)
    (hmax : g.max_date = some maxS)
    (hfail : strptimeFrag fmt minS = .error .valueError) :
    ∀ (vol : Nat) (stream : Nat → Nat),
      generate_synthetic_data [(col, stats)] vol stream
        = .ok (List.replicate vol [(col, "00000000")]) := by
  intro vol stream
  have hrec : ∀ st, genRecord stream [(col, stats)] [col] st
      = .ok ([(col, "00000000")], st) := by
    intro st
    have hred : (alookup [(col, stats)] col).getD {} = stats := by
      rw [alookup_cons_self]
      rfl
    simp only [genRecord, hred]
    rw [genValue_date_fb_min stream stats col st g fmt minS maxS hp hg hfmt hmin hmax hfail]
  have hloop : ∀ (n : Nat) (st : GenSt), genLoop stream [(col, stats)] [col] n st
      = .ok (List.replicate n [(col, "00000000")], st) := by
    intro n
    induction n with
    | zero => intro st; rfl
    | succ m ih =>
      intro st
      rw [genLoop, hrec st]
      dsimp only
      rw [ih st]
      rfl
  show (match genLoop stream [(col, stats)] [col] vol
      ⟨(([(col, stats)].filter (fun p => p.2.pattern == some "SEQUENCE")).map
          (fun p => (p.1, 0))), 0⟩ with
    | .error e => (.error e : Except PyErr (List (List (String × String))))
    | .ok (rs, _) => .ok rs)
      = .ok (List.replicate vol [(col, "00000000")])
  rw [hloop]

/-- C9 amended: for a DATE column with full guidelines (format within the
modelled `%Y`/`%m`/`%d` fragment): when both bounds parse and min ≤ max,
every emitted value is a date rendered with the format lying in the
inclusive day range; when either bound fails to parse — or both parse with
min > max, where `randint` raises a `ValueError` that the same handler
catches — every emitted value is the fixed literal `"00000000"`, and for
such a column alone generation still completes normally. -/
theorem C9_amended (profile : List (String × ColStats)) (volume : Nat)
    (stream : Nat → Nat) (col : String) (stats : ColStats) (g : GenGuidelines)
    (fmt minS maxS : String) (recs : List (List (String × String)))
    (hnd : (profile.map Prod.fst).Nodup)
    (hmem : (col, stats) ∈ profile)
    (hp : stats.pattern = some "DATE")
    (hg : stats.generation_guidelines = some g)
    (hfmt : g.date_format = some fmt)
    (hmin : g.min_date = some minS)
    (hmax : g.max_date = some maxS)
    (hgen : generate_synthetic_data profile volume stream = .ok recs) :
    (∀ dmin dmax, strptimeFrag fmt minS = .ok dmin → strptimeFrag fmt maxS = .ok dmax →
      daysOfDate dmin.1 dmin.2.1 dmin.2.2 ≤ daysOfDate dmax.1 dmax.2.1 dmax.2.2 →
      ∀ r ∈ recs, ∀ v, alookup r col = some v →
        ∃ n, daysOfDate dmin.1 dmin.2.1 dmin.2.2 ≤ n
          ∧ n ≤ daysOfDate dmax.1 dmax.2.1 dmax.2.2
          ∧ v = strftimeFrag fmt (dateOfDays n))
    ∧ (strptimeFrag fmt minS = .error .valueError →
        ∀ r ∈ recs, ∀ v, alookup r col = some v → v = "00000000")
    ∧ (∀ dmin, strptimeFrag fmt minS = .ok dmin →
        strptimeFrag fmt maxS = .error .valueError →
        ∀ r ∈ recs, ∀ v, alookup r col = some v → v = "00000000")
    ∧ (∀ dmin dmax, strptimeFrag fmt minS = .ok dmin →
        strptimeFrag fmt maxS = .ok dmax →
        daysOfDate dmax.1 dmax.2.1 dmax.2.2 < daysOfDate dmin.1 dmin.2.1 dmin.2.2 →
        ∀ r ∈ recs, ∀ v, alookup r col = some v → v = "00000000")
    ∧ (∀ (vol₂ : Nat) (stream₂ : Nat → Nat),
        strptimeFrag fmt minS = .error .valueError →
        generate_synthetic_data [(col, stats)] vol₂ stream₂
          = .ok (List.replicate vol₂ [(col, "00000000")])) := by
  refine ⟨?_, ?_, ?_, ?_, ?_⟩
  · intro dmin dmax hok1 hok2 hle r hr v hv
    obtain ⟨stA, stB, hgv⟩ := generate_lookup profile volume stream recs r col v hgen hr hv
    rw [alookup_of_mem_nodup hnd hmem] at hgv
    have hgv₂ : genValue stream stats col stA = .ok (v, stB) := hgv
    rw [genValue_date_ok stream stats col stA g fmt minS maxS hp hg hfmt hmin hmax
      dmin dmax hok1 hok2 hle] at hgv₂
    simp only [Except.ok.injEq, Prod.mk.injEq] at hgv₂
    refine ⟨daysOfDate dmin.1 dmin.2.1 dmin.2.2
        + stream stA.pos % (daysOfDate dmax.1 dmax.2.1 dmax.2.2
            - daysOfDate dmin.1 dmin.2.1 dmin.2.2 + 1), by omega, ?_, hgv₂.1.symm⟩
    have hmod := Nat.mod_lt (stream stA.pos)
      (show 0 < daysOfDate dmax.1 dmax.2.1 dmax.2.2
          - daysOfDate dmin.1 dmin.2.1 dmin.2.2 + 1 by omega)
    omega
  · intro hfail r hr v hv
    obtain ⟨stA, stB, hgv⟩ := generate_lookup profile volume stream recs r col v hgen hr hv
    rw [alookup_of_mem_nodup hnd hmem] at hgv
    have hgv₂ : genValue stream stats col stA = .ok (v, stB) := hgv
    rw [genValue_date_fb_min stream stats col stA g fmt minS maxS hp hg hfmt hmin hmax
      hfail] at hgv₂
    simp only [Except.ok.injEq, Prod.mk.injEq] at hgv₂
    exact hgv₂.1.symm
  · intro dmin hok1 hfail r hr v hv
    obtain ⟨stA, stB, hgv⟩ := generate_lookup profile volume stream recs r col v hgen hr hv
    rw [alookup_of_mem_nodup hnd hmem] at hgv
    have hgv₂ : genValue stream stats col stA = .ok (v, stB) := hgv
    rw [genValue_date_fb_max stream stats col stA g fmt minS maxS hp hg hfmt hmin hmax
      dmin hok1 hfail] at hgv₂
    simp only [Except.ok.injEq, Prod.mk.injEq] at hgv₂
    exact hgv₂.1.symm
  · intro dmin dmax hok1 hok2 hlt r hr v hv
    obtain ⟨stA, stB, hgv⟩ := generate_lookup profile volume stream recs r col v hgen hr hv
    rw [alookup_of_mem_nodup hnd hmem] at hgv
    have hgv₂ : genValue stream stats col stA = .ok (v, stB) := hgv
    rw [genValue_date_fb_inv stream stats col stA g fmt minS maxS hp hg hfmt hmin hmax
      dmin dmax hok1 hok2 hlt] at hgv₂
    simp only [Except.ok.injEq, Prod.mk.injEq] at hgv₂
    exact hgv₂.1.symm
  · intro vol₂ stream₂ hfail
    exact generate_singleton_date_fb col stats g fmt minS maxS hp hg hfmt hmin hmax
      hfail vol₂ stream₂

/-- C9 counterexample: both bounds parse under the format but min > max; the
generator emits the fallback literal `"00000000"`, which lies in no (empty)
day range, where the claim as stated requires an in-range rendered date. -/
theorem C9_cex :
    generate_synthetic_data [("c", { pattern := some "DATE", generation_guidelines := some { date_format := some "%Y%m%d", min_date := some "20230110", max_date := some "20230101" } })] 1 (fun _ => 0)
      = .ok [[("c", "00000000")]]
    ∧ strptimeFrag "%Y%m%d" "20230110" = .ok (2023, 1, 10)
    ∧ strptimeFrag "%Y%m%d" "20230101" = .ok (2023, 1, 1)
    ∧ ¬ ∃ n, daysOfDate 2023 1 10 ≤ n ∧ n ≤ daysOfDate 2023 1 1
        ∧ "00000000" = strftimeFrag "%Y%m%d" (dateOfDays n) := by
  refine ⟨by decide, by decide, by decide, ?_⟩
  rintro ⟨n, h1, h2, -⟩
  have h3 : daysOfDate 2023 1 1 < daysOfDate 2023 1 10 := by decide
  omega

theorem C9_amended_witness :
    (∀ dmin dmax, strptimeFrag "%m%d%Y" "01012023" = .ok dmin →
      strptimeFrag "%m%d%Y" "12312023" = .ok dmax →
      daysOfDate dmin.1 dmin.2.1 dmin.2.2 ≤ daysOfDate dmax.1 dmax.2.1 dmax.2.2 →
      ∀ r ∈ ([[("c", "01012023")]] : List (List (String × String))), ∀ v,
        alookup r "c" = some v →
        ∃ n, daysOfDate dmin.1 dmin.2.1 dmin.2.2 ≤ n
          ∧ n ≤ daysOfDate dmax.1 dmax.2.1 dmax.2.2
          ∧ v = strftimeFrag "%m%d%Y" (dateOfDays n))
    ∧ (strptimeFrag "%m%d%Y" "01012023" = .error .valueError →
        ∀ r ∈ ([[("c", "01012023")]] : List (List (String × String))), ∀ v,
          alookup r "c" = some v → v = "00000000")
    ∧ (∀ dmin, strptimeFrag "%m%d%Y" "01012023" = .ok dmin →
        strptimeFrag "%m%d%Y" "12312023" = .error .valueError →
        ∀ r ∈ ([[("c", "01012023")]] : List (List (String × String))), ∀ v,
          alookup r "c" = some v → v = "00000000")
    ∧ (∀ dmin dmax, strptimeFrag "%m%d%Y" "01012023" = .ok dmin →
        strptimeFrag "%m%d%Y" "12312023" = .ok dmax →
        daysOfDate dmax.1 dmax.2.1 dmax.2.2 < daysOfDate dmin.1 dmin.2.1 dmin.2.2 →
        ∀ r ∈ ([[("c", "01012023")]] : List (List (String × String))), ∀ v,
          alookup r "c" = some v → v = "00000000")
    ∧ (∀ (vol₂ : Nat) (stream₂ : Nat → Nat),
        strptimeFrag "%m%d%Y" "01012023" = .error .valueError →
        generate_synthetic_data [("c", { pattern := some "DATE", generation_guidelines := some { date_format := some "%m%d%Y", min_date := some "01012023", max_date := some "12312023" } })] vol₂ stream₂
          = .ok (List.replicate vol₂ [("c", "00000000")])) :=
  C9_amended [("c", { pattern := some "DATE", generation_guidelines := some { date_format := some "%m%d%Y", min_date := some "01012023", max_date := some "12312023" } })] 1 (fun _ => 0)
    "c" { pattern := some "DATE", generation_guidelines := some { date_format := some "%m%d%Y", min_date := some "01012023", max_date := some "12312023" } }
    { date_format := some "%m%d%Y", min_date := some "01012023", max_date := some "12312023" }
    "%m%d%Y" "01012023" "12312023" [[("c", "01012023")]]
    (by decide) (by decide) rfl rfl rfl rfl rfl (by decide)

theorem C1_witness :
    parse_fixed_length_data "00000001ABCD" [("id", 8), ("code", 4)]
      = [[("id", "00000001"), ("code", "ABCD")]]
    ∧ alookup (decodeLine [("id", 8), ("code", 4)] "00000001ABCD") "code"
        = some "ABCD" := by
  constructor
  · rw [(C1 [("id", 8), ("code", 4)] "00000001ABCD").1]; decide
  · have h := (C1 [("id", 8), ("code", 4)] "00000001ABCD").2 "00000001ABCD"
      [("id", 8)] [] "code" 4 rfl (by simp)
    rw [h]; decide

end Cibus
